import Mathlib

/-!
The person provider: REST session and resource lifecycle handlers.

A shallow embedding of `person/rest.go`, `person/resource_person.go` and
`person/provider.go`.

* Go values of type `interface{}` are `GoVal`.
* A Go run-time panic (nil dereference, failed type assertion) is the
  `Outcome.panic` result; a normal return is `Outcome.ret`.
* The network, `http.NewRequest`, the JSON scanner and the `fmt` verbs for
  strings and floats are the environment `Env`; what the code does with their
  results is defined here.
* Every call of `client.Do`, every read or close of a response body and every
  call of `json.Unmarshal` is appended to a trace of `Event`s.
* Diagnostic output (`log`, `glog`, `fmt.Printf`, `httputil.DumpRequestOut`)
  has no effect on results and is left out.
-/

namespace Person

/-! ## float64 values produced by `encoding/json` -/

/-- A finite IEEE-754 binary64 value `(-1)^neg * mant * 2^exp`. -/
structure F64 where
  neg : Bool
  mant : Nat
  exp : Int
  deriving DecidableEq, Repr

/-- Quotient of `num / den` rounded to the nearest integer, ties to even. -/
def roundHalfEven (num den : Nat) : Nat :=
  let q := num / den
  let r := num % den
  if 2 * r > den ∨ (2 * r = den ∧ q % 2 = 1) then q + 1 else q

/-- Number of binary digits of `n`, by repeated halving (`fuel` bounds the number of steps). -/
def bitLength : Nat → Nat → Nat
  | 0, _ => 0
  | fuel + 1, n => if n = 0 then 0 else bitLength fuel (n / 2) + 1

/-- Floor of the base-2 logarithm of a positive `n` (and `0` for `n = 0`). -/
def log2 (n : Nat) : Nat := bitLength n n - 1

/-- Integer `k` with `2^k ≤ a / b < 2^(k+1)` for positive `a`, `b`. -/
def floorLog2Ratio (a b : Nat) : Int :=
  let k0 : Int := (log2 a : Int) - (log2 b : Int)
  let ge : Bool :=
    if 0 ≤ k0 then decide (b * 2 ^ k0.toNat ≤ a) else decide (b ≤ a * 2 ^ (-k0).toNat)
  if ge then k0 else k0 - 1

/-- `strconv.ParseFloat(s, 64)` on a literal of value `a / b` (with `0 < b`):
round to nearest, ties to even, 53-bit significand, gradual underflow;
`none` is the range error for a value that rounds beyond the largest finite float64. -/
def F64.ofRatio (neg : Bool) (a b : Nat) : Option F64 :=
  if a = 0 then some { neg := neg, mant := 0, exp := 0 }
  else
    let e : Int := max (floorLog2Ratio a b - 52) (-1074)
    let m : Nat :=
      if 0 ≤ e then roundHalfEven a (b * 2 ^ e.toNat) else roundHalfEven (a * 2 ^ (-e).toNat) b
    let me : Nat × Int := if m = 2 ^ 53 then (2 ^ 52, e + 1) else (m, e)
    if me.2 > 971 then none else some { neg := neg, mant := me.1, exp := me.2 }

/-- `fmt.Sprintf("%.0f", f)`: the value rounded to an integer (ties to even),
written in decimal digits, with a leading minus sign for a negative float. -/
def F64.format0 (f : F64) : String :=
  let n : Nat :=
    if 0 ≤ f.exp then f.mant * 2 ^ f.exp.toNat else roundHalfEven f.mant (2 ^ (-f.exp).toNat)
  (if f.neg then "-" else "") ++ Nat.repr n

/-! ## JSON documents and Go values -/

/-- A syntactically valid JSON document. A number literal is
`(-1)^neg * mant * 10^exp10`, which covers every JSON number. -/
inductive Json where
  | null
  | bool (b : Bool)
  | num (neg : Bool) (mant : Nat) (exp10 : Int)
  | str (s : String)
  | arr (xs : List Json)
  | obj (kvs : List (String × Json))

/-- A Go value held in an `interface{}`. `unsupported` stands for a value
`json.Marshal` rejects (a channel, a function, a complex number). -/
inductive GoVal where
  | nil
  | bool (b : Bool)
  | float64 (f : F64)
  | str (s : String)
  | slice (xs : List GoVal)
  | map (kvs : List (String × GoVal))
  | unsupported (desc : String)

/-- Go map read `m[k]`: the stored value, if any. -/
def mapGet {α : Type} (k : String) : List (String × α) → Option α
  | [] => none
  | (k', v) :: rest => if k' = k then some v else mapGet k rest

/-- Go map write `m[k] = v`: replaces the entry for `k` or adds one. -/
def mapSet {α : Type} (k : String) (v : α) : List (String × α) → List (String × α)
  | [] => [(k, v)]
  | (k', v') :: rest => if k' = k then (k, v) :: rest else (k', v') :: mapSet k v rest

/-- Value of a JSON number literal as a float64 (`none` on range error). -/
def decodeNumber (neg : Bool) (mant : Nat) (exp10 : Int) : Option F64 :=
  if 0 ≤ exp10 then F64.ofRatio neg (mant * 10 ^ exp10.toNat) 1
  else F64.ofRatio neg mant (10 ^ (-exp10).toNat)

mutual
/-- Value `json.Unmarshal` builds for a document decoded into an empty
`interface{}`: numbers become float64, objects become
`map[string]interface{}` (a repeated key keeps its last value), arrays become
`[]interface{}`. A number out of float64 range is left as nil. -/
def decodeJson : Json → GoVal
  | .null => .nil
  | .bool b => .bool b
  | .num neg mant exp10 =>
    match decodeNumber neg mant exp10 with
    | some f => .float64 f
    | none => .nil
  | .str s => .str s
  | .arr xs => .slice (decodeList xs)
  | .obj kvs => .map (decodeFields kvs [])
/-- Elements of a decoded array. -/
def decodeList : List Json → List GoVal
  | [] => []
  | x :: xs => decodeJson x :: decodeList xs
/-- Entries of a decoded object, added to `acc` in document order. -/
def decodeFields : List (String × Json) → List (String × GoVal) → List (String × GoVal)
  | [], acc => acc
  | (k, v) :: rest, acc => decodeFields rest (mapSet k (decodeJson v) acc)
end

mutual
/-- Whether decoding meets a number out of float64 range (`json.Unmarshal`
then returns an `UnmarshalTypeError` after storing the rest). -/
def hasRangeError : Json → Bool
  | .num neg mant exp10 => (decodeNumber neg mant exp10).isNone
  | .arr xs => hasRangeErrorList xs
  | .obj kvs => hasRangeErrorFields kvs
  | _ => false
/-- Range error in one of the elements. -/
def hasRangeErrorList : List Json → Bool
  | [] => false
  | x :: xs => hasRangeError x || hasRangeErrorList xs
/-- Range error in one of the entries. -/
def hasRangeErrorFields : List (String × Json) → Bool
  | [] => false
  | (_, v) :: rest => hasRangeError v || hasRangeErrorFields rest
end

/-! ## Environment: network, request construction, JSON scanner, formatting -/

/-- An outgoing `*http.Request` as built by `newPersonRequest`. Its `url` is
the URL of the request itself, `req.URL`: what `http.NewRequest` parsed from
the URL text it was given, written as text. -/
structure Request where
  verb : String
  url : String
  headers : List (String × String)
  body : Option String
  deriving DecidableEq, Repr

/-- An `*http.Response`. `body = none` is `resp.Body == nil`; otherwise the
body is what `ioutil.ReadAll` yields: the bytes or a read error. -/
structure Response where
  statusCode : Int
  status : String
  body : Option (Except String String)

/-- Result pair of `client.Do`: `resp = none` is a nil response, `err` the
transport error (its message). -/
structure DoResult where
  resp : Option Response
  err : Option String

/-- An observable step of a run. -/
inductive Event where
  | request (req : Request)
  | bodyRead
  | bodyClose
  | unmarshal (data : String)
  deriving DecidableEq, Repr

/-- A run ends with a normal return or with a Go run-time panic. -/
inductive Outcome (α : Type) where
  | ret (a : α)
  | panic (msg : String)
  deriving DecidableEq

/-- The libraries and the network the package runs against.
`clientDo` answers a request given the events of the run so far;
`newRequest verb url` is `http.NewRequest(verb, url, _)`: its error, or the
URL of the request it builds (the text `url` parsed and normalised by `net/url`);
`parse` is the JSON scanner (`none` for a syntax error);
`encodeString` and `encodeFloat` are the JSON encodings of a string and of a
float64; `sprintV` is `fmt.Sprintf("%v", v)`. -/
structure Env where
  clientDo : List Event → Request → DoResult
  newRequest : String → String → Except String String
  parse : String → Option Json
  encodeString : String → String
  encodeFloat : F64 → String
  sprintV : GoVal → String

/-! ## `json.Marshal` and `json.Unmarshal` -/

/-- Lexicographic order of two texts by code point. -/
def charsLt : List Char → List Char → Bool
  | _, [] => false
  | [], _ :: _ => true
  | a :: as, b :: bs =>
    if a.toNat < b.toNat then true
    else if b.toNat < a.toNat then false
    else charsLt as bs

/-- Order of map keys in `json.Marshal`: the order of Go strings. -/
def keyLt (a b : String) : Bool := charsLt a.toList b.toList

/-- Insertion of an entry into a list ordered by key. -/
def insertByKey {β : Type} (k : String) (v : β) : List (String × β) → List (String × β)
  | [] => [(k, v)]
  | (k', v') :: rest =>
    if keyLt k k' then (k, v) :: (k', v') :: rest else (k', v') :: insertByKey k v rest

/-- Entries ordered by key, the order in which `json.Marshal` writes a map. -/
def sortByKey {β : Type} : List (String × β) → List (String × β)
  | [] => []
  | (k, v) :: rest => insertByKey k v (sortByKey rest)

/-- Texts separated by commas. -/
def joinComma : List String → String
  | [] => ""
  | [s] => s
  | s :: t :: rest => s ++ "," ++ joinComma (t :: rest)

/-- The members `key:value` of an object, or the first encoding error. -/
def encodeMembers (env : Env) : List (String × Except String String) → Except String (List String)
  | [] => .ok []
  | (_, .error e) :: _ => .error e
  | (k, .ok s) :: rest =>
    match encodeMembers env rest with
    | .error e => .error e
    | .ok ms => .ok ((env.encodeString k ++ ":" ++ s) :: ms)

/-- The elements of an array, or the first encoding error. -/
def collectElems : List (Except String String) → Except String (List String)
  | [] => .ok []
  | .error e :: _ => .error e
  | .ok s :: rest =>
    match collectElems rest with
    | .error e => .error e
    | .ok ms => .ok (s :: ms)

mutual
/-- The `json.Marshal` encoding of a value: compact, map keys in sorted order. -/
def jsonMarshal (env : Env) : GoVal → Except String String
  | .nil => .ok "null"
  | .bool b => .ok (if b then "true" else "false")
  | .float64 f => .ok (env.encodeFloat f)
  | .str s => .ok (env.encodeString s)
  | .slice xs =>
    match collectElems (marshalList env xs) with
    | .error e => .error e
    | .ok ms => .ok ("[" ++ joinComma ms ++ "]")
  | .map kvs =>
    match encodeMembers env (sortByKey (marshalFields env kvs)) with
    | .error e => .error e
    | .ok ms => .ok ("\x7b" ++ joinComma ms ++ "\x7d")
  | .unsupported desc => .error ("json: unsupported type: " ++ desc)
/-- Encodings of the elements of a slice. -/
def marshalList (env : Env) : List GoVal → List (Except String String)
  | [] => []
  | x :: xs => jsonMarshal env x :: marshalList env xs
/-- Encodings of the values of a map, by key. -/
def marshalFields (env : Env) : List (String × GoVal) → List (String × Except String String)
  | [] => []
  | (k, v) :: rest => (k, jsonMarshal env v) :: marshalFields env rest
end

/-- Call `json.Unmarshal(data, &v)` for a variable `v` of type `interface{}`
holding `cur`: the error, if any, and the new value of `v`. A syntax error
leaves `v` as it is, and so do the document `null` and a document that is a
single number out of float64 range (which is reported); any other document
replaces it (also when a number inside it was out of range, which is reported). -/
def jsonUnmarshal (env : Env) (data : String) (cur : GoVal) : Option String × GoVal :=
  match env.parse data with
  | none => (some "json: syntax error", cur)
  | some .null => (none, cur)
  | some (.num neg mant exp10) =>
    match decodeNumber neg mant exp10 with
    | some f => (none, .float64 f)
    | none => (some "json: cannot unmarshal number into Go value of type float64", cur)
  | some j =>
    (if hasRangeError j then some "json: cannot unmarshal number into Go value of type float64"
     else none, decodeJson j)

/-! ## rest.go -/

/-- Nanoseconds, as `time.Duration`. -/
abbrev Duration := Int

/-- One second as a `time.Duration`. -/
def Second : Duration := 1000000000

/-- Default request timeout of the session. -/
def DEFAULT_API_TIMEOUT : Duration := 60 * Second

/-- Result payload the server sends with an error. -/
structure PersonResult where
  Code : Int := 0
  Message : Option String := none
  deriving DecidableEq, Repr

/-- Error value of the REST session. -/
structure PersonError extends PersonResult where
  Verb : String := ""
  Url : String := ""
  HttpStatusCode : Int := 0
  err : Option String := none
  deriving DecidableEq, Repr

/-- A non-nil Go `error`: a `PersonError`, or an error made by `errors.New`
or a library, known by its message. A nil error is `none : Option GoError`. -/
inductive GoError where
  | person (e : PersonError)
  | plain (msg : String)
  deriving DecidableEq, Repr

/-- The method `Error` of `PersonError`. -/
def PersonError.Error (err : PersonError) : String :=
  let msg : String :=
    match err.err with
    | some e => "error: " ++ e
    | none =>
      match err.Message with
      | some m => "HTTP code: " ++ toString err.HttpStatusCode ++ "; error from Person: " ++ m
      | none => "HTTP code: " ++ toString err.HttpStatusCode ++ "."
  "Encountered an error on " ++ err.Verb ++ " request to URL " ++ err.Url ++ ": " ++ msg

/-- The message of an error. -/
def GoError.Error : GoError → String
  | .person e => e.Error
  | .plain msg => msg

/-- The `*http.Transport` of a session. -/
structure Transport where
  insecureSkipVerify : Bool
  deriving DecidableEq, Repr

/-- The `*http.Client` of a session. -/
structure HttpClient where
  transport : Option Transport
  timeout : Duration
  deriving DecidableEq, Repr

/-- The session. A nil `transport` or `client` is `none`. -/
structure PersonSession where
  host : String
  insecure : Bool := false
  prefix_ : String := ""
  timeout : Duration := 0
  transport : Option Transport := none
  client : Option HttpClient := none
  deriving DecidableEq, Repr

/-- An option of `NewPersonSession`: a function that changes the session or fails. -/
abbrev SessionOption := PersonSession → Except String PersonSession

/-- The request, or nil, and the error record of `newPersonRequest`. -/
def newPersonRequest (env : Env) (verb url : String) (payload : Option String) :
    Option Request × PersonError :=
  let errorResult : PersonError := { Verb := verb, Url := url }
  match env.newRequest verb url with
  | .error err =>
    (none, { errorResult with err := some ("http.NewRequest failed: " ++ err) })
  | .ok parsed =>
    (some { verb := verb, url := parsed,
            headers := [("Content-Type", "application/json")], body := payload },
     errorResult)

/-- The message of the panic of a nil dereference. -/
def nilDeref : String := "invalid memory address or nil pointer dereference"

/-- The body of a request for `payload`: none for a nil payload, else its
`json.Marshal` encoding, or the error of `json.Marshal`. -/
def encodePayload (env : Env) (payload : GoVal) : Except String (Option String) :=
  match payload with
  | .nil => .ok none
  | p =>
    match jsonMarshal env p with
    | .error e => .error e
    | .ok jsonStr => .ok (some jsonStr)

/-- The method `restRequest`: the response, or the error, after one call of `client.Do`. -/
def restRequest (env : Env) (personsess : PersonSession) (verb uri : String) (payload : GoVal)
    (tr : List Event) : Outcome (Except GoError Response) × List Event :=
  let url := personsess.prefix_ ++ uri
  match encodePayload env payload with
  | .error err => (.ret (.error (.person { Verb := verb, Url := url, err := some err })), tr)
  | .ok payloadIO =>
    let (req, errorResult) := newPersonRequest env verb url payloadIO
    match errorResult.err with
    | some _ => (.ret (.error (.person errorResult)), tr)
    | none =>
      match personsess.client, req with
      | none, _ => (.panic nilDeref, tr)
      | some _, none => (.panic nilDeref, tr)
      | some _, some req =>
        let tr1 := tr ++ [Event.request req]
        match (env.clientDo tr req).resp with
        | none => (.panic nilDeref, tr1)
        | some resp =>
          if resp.statusCode > 299 then
            match resp.body with
            | none => (.panic nilDeref, tr1)
            | some _ =>
              (.ret (.error (.plain "Rest request error, returning to caller")),
               tr1 ++ [Event.bodyClose])
          else (.ret (.ok resp), tr1)

/-- The function `NewPersonSession`. The options are accepted and not used. -/
def NewPersonSession (host : String) (_options : List SessionOption) :
    PersonSession × Option GoError :=
  let personsess : PersonSession := { host := host }
  let personsess := { personsess with prefix_ := "http://" ++ personsess.host ++ "/" }
  let personsess := { personsess with insecure := false }
  let personsess :=
    if personsess.timeout = 0 then { personsess with timeout := DEFAULT_API_TIMEOUT }
    else personsess
  let personsess :=
    if personsess.client = none then
      let personsess :=
        if personsess.transport = none then
          { personsess with transport := some { insecureSkipVerify := true } }
        else personsess
      { personsess with
        client := some { transport := personsess.transport, timeout := personsess.timeout } }
    else personsess
  (personsess, none)

/-- The method `convertPersonResponseToMapInterface`. -/
def convertPersonResponseToMapInterface (env : Env) (resbytes : String) : GoVal × Option String :=
  let r := jsonUnmarshal env resbytes .nil
  (r.2, r.1)

/-- The method `fetchBody`: the bytes read and the error, and the events of the call.
On a read error the bytes read so far are not kept: the only caller drops them. -/
def fetchBody (env : Env) (verb url : String) (resp : Response) (tr : List Event) :
    (String × Option GoError) × List Event :=
  let errorResult : PersonError := { HttpStatusCode := resp.statusCode, Verb := verb, Url := url }
  if resp.statusCode = 204 then (("", none), tr)
  else
    match resp.body with
    | none => (("", some (.person { errorResult with Message := some resp.status })), tr)
    | some (.ok result) =>
      if resp.statusCode < 200 ∨ resp.statusCode > 299 then
        let mres := (convertPersonResponseToMapInterface env result).1
        let emsg := env.sprintV mres
        ((result, some (.person { errorResult with Message := some emsg })),
         tr ++ [Event.bodyRead, Event.unmarshal result, Event.bodyClose])
      else ((result, none), tr ++ [Event.bodyRead, Event.bodyClose])
    | some (.error err) =>
      let errmsg := "Response body read failed: " ++ err
      (("", some (.person { errorResult with Message := some errmsg })),
       tr ++ [Event.bodyRead, Event.bodyClose])

/-- Result of a verb method: how it ended, the caller's response variable
afterwards, and the events. -/
structure CallResult where
  out : Outcome (Option GoError)
  target : Option GoVal
  trace : List Event

/-- The method `restRequestInterfaceResponse`. `response = none` is a nil
`response` argument; `some v` is a pointer to a variable of the caller that holds `v`. -/
def restRequestInterfaceResponse (env : Env) (personsess : PersonSession) (verb url : String)
    (payload : GoVal) (response : Option GoVal) (tr : List Event) : CallResult :=
  match restRequest env personsess verb url payload tr with
  | (.panic msg, tr1) => { out := .panic msg, target := response, trace := tr1 }
  | (.ret (.error rerror), tr1) => { out := .ret (some rerror), target := response, trace := tr1 }
  | (.ret (.ok httpResponse), tr1) =>
    match fetchBody env verb url httpResponse tr1 with
    | ((_, some err), tr2) => { out := .ret (some err), target := response, trace := tr2 }
    | ((res, none), tr2) =>
      if res.length = 0 then { out := .ret none, target := response, trace := tr2 }
      else
        { out := .ret none
          target := response.map (fun cur => (jsonUnmarshal env res cur).2)
          trace := tr2 ++ [Event.unmarshal res] }

/-- The method `Get`. -/
def PersonSession.Get (env : Env) (personsess : PersonSession) (uri : String)
    (response : Option GoVal) (tr : List Event) : CallResult :=
  restRequestInterfaceResponse env personsess "GET" uri .nil response tr

/-- The method `Post`. -/
def PersonSession.Post (env : Env) (personsess : PersonSession) (uri : String) (payload : GoVal)
    (response : Option GoVal) (tr : List Event) : CallResult :=
  restRequestInterfaceResponse env personsess "POST" uri payload response tr

/-- The method `Put`. -/
def PersonSession.Put (env : Env) (personsess : PersonSession) (uri : String) (payload : GoVal)
    (response : Option GoVal) (tr : List Event) : CallResult :=
  restRequestInterfaceResponse env personsess "PUT" uri payload response tr

/-- The method `Patch`. -/
def PersonSession.Patch (env : Env) (personsess : PersonSession) (uri : String) (payload : GoVal)
    (patchOp : String) (response : Option GoVal) (tr : List Event) : CallResult :=
  let patchPayload : List (String × GoVal) := []
  let patchPayload := mapSet patchOp payload patchPayload
  restRequestInterfaceResponse env personsess "PATCH" uri (.map patchPayload) response tr

/-- The method `Delete`. The first of `params` is the payload; when there are
exactly two, the second is the caller's response variable. -/
def PersonSession.Delete (env : Env) (personsess : PersonSession) (uri : String)
    (params : List GoVal) (tr : List Event) : CallResult :=
  let payload : GoVal := match params with
    | [] => .nil
    | p :: _ => p
  let response : Option GoVal := match params with
    | [_, r] => some r
    | _ => none
  restRequestInterfaceResponse env personsess "DELETE" uri payload response tr

/-! ## resource_person.go and provider.go -/

/-- The `*schema.ResourceData` of a resource whose fields are all strings:
its unique id and its field values. -/
structure ResourceData where
  id : String := ""
  fields : List (String × String) := []
  deriving DecidableEq, Repr

/-- Read `d.Get(key).(string)`: the value, or the empty string when unset. -/
def ResourceData.Get (d : ResourceData) (key : String) : String :=
  (mapGet key d.fields).getD ""

/-- Call `d.SetId(v)`. -/
def ResourceData.SetId (d : ResourceData) (v : String) : ResourceData :=
  { d with id := v }

/-- Call `d.Set(key, value)`. -/
def ResourceData.Set (d : ResourceData) (key value : String) : ResourceData :=
  { d with fields := mapSet key value d.fields }

/-- Result of a lifecycle handler: how it ended, the resource data afterwards, the events. -/
structure HandlerResult where
  out : Outcome (Option GoError)
  d : ResourceData
  trace : List Event

/-- Message of the panic of a failed type assertion. -/
def conversionPanic (want : String) : String :=
  "interface conversion: interface {} is not " ++ want

/-- Tail shared by the handlers: `respMap := v.(map[string]interface{})`,
`person_id := respMap["person_id"].(float64)`, then the id is formatted with
`%.0f` and stored with `SetId` and `Set`, and `err` is returned. -/
def storeIdentity (v : Option GoVal) (err : Option GoError) (d : ResourceData)
    (tr : List Event) : HandlerResult :=
  match v with
  | some (.map respMap) =>
    match mapGet "person_id" respMap with
    | some (.float64 person_id) =>
      let id := F64.format0 person_id
      let d := d.SetId id
      let d := d.Set "person_id" id
      { out := .ret err, d := d, trace := tr }
    | _ => { out := .panic (conversionPanic "float64"), d := d, trace := tr }
  | _ => { out := .panic (conversionPanic "map[string]interface {}"), d := d, trace := tr }

/-- The handler `ResourcePersonRead`. -/
def ResourcePersonRead (env : Env) (d : ResourceData) (client : PersonSession)
    (tr : List Event) : HandlerResult :=
  let id := d.Get "person_id"
  let r := client.Get env ("api/person/" ++ id) (some .nil) tr
  match r.out with
  | .panic msg => { out := .panic msg, d := d, trace := r.trace }
  | .ret err => storeIdentity r.target err d r.trace

/-- The handler `resourcePersonCreate`. -/
def resourcePersonCreate (env : Env) (d : ResourceData) (client : PersonSession)
    (tr : List Event) : HandlerResult :=
  let person : List (String × GoVal) := []
  let person := mapSet "name" (.str (d.Get "name")) person
  let person := mapSet "address" (.str (d.Get "address")) person
  let person := mapSet "email" (.str (d.Get "email")) person
  let person := mapSet "mobile_number" (.str (d.Get "mobile_number")) person
  let r := client.Post env "api/person" (.map person) (some .nil) tr
  match r.out with
  | .panic msg => { out := .panic msg, d := d, trace := r.trace }
  | .ret err => storeIdentity r.target err d r.trace

/-- The handler `resourcePersonUpdate`. -/
def resourcePersonUpdate (env : Env) (d : ResourceData) (client : PersonSession)
    (tr : List Event) : HandlerResult :=
  let id := d.Get "person_id"
  let r := client.Get env ("api/person/" ++ id) (some .nil) tr
  match r.out with
  | .panic msg => { out := .panic msg, d := d, trace := r.trace }
  | .ret _ =>
    match r.target with
    | some (.map respMap) =>
      let respMap := mapSet "name" (.str (d.Get "name")) respMap
      let respMap := mapSet "address" (.str (d.Get "address")) respMap
      let respMap := mapSet "email" (.str (d.Get "email")) respMap
      let respMap := mapSet "mobile_number" (.str (d.Get "mobile_number")) respMap
      let r2 := client.Put env ("api/person/" ++ id) (.map respMap) (some .nil) r.trace
      match r2.out with
      | .panic msg => { out := .panic msg, d := d, trace := r2.trace }
      | .ret err => storeIdentity r2.target err d r2.trace
    | _ => { out := .panic (conversionPanic "map[string]interface {}"), d := d, trace := r.trace }

/-- The handler `resourcePersonDelete`. -/
def resourcePersonDelete (env : Env) (d : ResourceData) (client : PersonSession)
    (tr : List Event) : HandlerResult :=
  let id := d.Get "person_id"
  let r := client.Delete env ("api/person/" ++ id) [] tr
  { out := r.out, d := d, trace := r.trace }

/-- The function `providerConfigure`. -/
def providerConfigure (d : ResourceData) : PersonSession × Option GoError :=
  let person_service_url := d.Get "person_service_url"
  let person_service_port := d.Get "person_service_port"
  NewPersonSession (person_service_url ++ ":" ++ person_service_port) []

/-! ## Vocabulary of the statements -/

/-- A call of one of the five verb methods, with its arguments. -/
inductive VerbCall where
  | Get (uri : String) (response : Option GoVal)
  | Post (uri : String) (payload : GoVal) (response : Option GoVal)
  | Put (uri : String) (payload : GoVal) (response : Option GoVal)
  | Patch (uri : String) (payload : GoVal) (patchOp : String) (response : Option GoVal)
  | Delete (uri : String) (params : List GoVal)

/-- Run the call on a session. -/
def VerbCall.run (env : Env) (personsess : PersonSession) : VerbCall → List Event → CallResult
  | .Get uri response => personsess.Get env uri response
  | .Post uri payload response => personsess.Post env uri payload response
  | .Put uri payload response => personsess.Put env uri payload response
  | .Patch uri payload patchOp response => personsess.Patch env uri payload patchOp response
  | .Delete uri params => personsess.Delete env uri params

/-- The HTTP verb of the call. -/
def VerbCall.verb : VerbCall → String
  | .Get _ _ => "GET"
  | .Post _ _ _ => "POST"
  | .Put _ _ _ => "PUT"
  | .Patch _ _ _ _ => "PATCH"
  | .Delete _ _ => "DELETE"

/-- The URI of the call. -/
def VerbCall.uri : VerbCall → String
  | .Get uri _ => uri
  | .Post uri _ _ => uri
  | .Put uri _ _ => uri
  | .Patch uri _ _ _ => uri
  | .Delete uri _ => uri

/-- The value the call hands to `restRequest` as payload. -/
def VerbCall.payload : VerbCall → GoVal
  | .Get _ _ => .nil
  | .Post _ payload _ => payload
  | .Put _ payload _ => payload
  | .Patch _ payload patchOp _ => .map [(patchOp, payload)]
  | .Delete _ [] => .nil
  | .Delete _ (p :: _) => p

/-- The caller's response variable, if the call has one. -/
def VerbCall.response : VerbCall → Option GoVal
  | .Get _ response => response
  | .Post _ _ response => response
  | .Put _ _ response => response
  | .Patch _ _ _ response => response
  | .Delete _ [_, r] => some r
  | .Delete _ _ => none

/-- The header list `newPersonRequest` gives every request. -/
def jsonHeaders : List (String × String) := [("Content-Type", "application/json")]

/-- The request `newPersonRequest` builds: `parsed` is the URL that
`http.NewRequest` made of the URL text. -/
def outgoing (verb parsed : String) (body : Option String) : Request :=
  { verb := verb, url := parsed, headers := jsonHeaders, body := body }

/-- The call `restRequest verb uri payload` builds the request `req` and hands
it to `client.Do`: the payload is encoded, `http.NewRequest` accepts the URL
text `prefix + uri`, and the session has a client. -/
def Sends (env : Env) (personsess : PersonSession) (verb uri : String) (payload : GoVal)
    (req : Request) : Prop :=
  ∃ body parsed, encodePayload env payload = .ok body ∧
    env.newRequest verb (personsess.prefix_ ++ uri) = .ok parsed ∧
    personsess.client.isSome = true ∧
    req = outgoing verb parsed body

/-- The request of `restRequest verb uri payload` is built and handed to
`client.Do`, which yields the response `resp`. -/
def Answered (env : Env) (personsess : PersonSession) (verb uri : String) (payload : GoVal)
    (tr : List Event) (resp : Response) : Prop :=
  ∃ req, Sends env personsess verb uri payload req ∧ (env.clientDo tr req).resp = some resp

/-- The request of `restRequest verb uri payload` is built and handed to
`client.Do`, which yields no response. -/
def Unanswered (env : Env) (personsess : PersonSession) (verb uri : String) (payload : GoVal)
    (tr : List Event) : Prop :=
  ∃ req, Sends env personsess verb uri payload req ∧ (env.clientDo tr req).resp = none

/-- The requests handed to `client.Do` in a trace, in order. -/
def requestsOf : List Event → List Request
  | [] => []
  | .request req :: rest => req :: requestsOf rest
  | _ :: rest => requestsOf rest

/-- The value has a `json.Marshal` encoding. -/
def Encodes (env : Env) (v : GoVal) : Prop := ∃ s, jsonMarshal env v = .ok s

/-- The response has a 2xx status other than 204 and a readable, non-empty
body `res` that is a JSON object, which decodes to the map `m`. -/
def Delivers (env : Env) (resp : Response) (res : String) (m : List (String × GoVal)) : Prop :=
  200 ≤ resp.statusCode ∧ resp.statusCode ≤ 299 ∧ resp.statusCode ≠ 204 ∧
    resp.body = some (.ok res) ∧ res.length ≠ 0 ∧
    ∃ kvs, env.parse res = some (.obj kvs) ∧ decodeFields kvs [] = m

/-- The trace after the request `req` was answered with a 2xx response whose
body `res` was read and decoded. -/
def afterDecode (tr : List Event) (req : Request) (res : String) : List Event :=
  tr ++ [Event.request req] ++ [Event.bodyRead, Event.bodyClose] ++ [Event.unmarshal res]

/-- The map `person` that `resourcePersonCreate` builds and posts. -/
def createPayload (d : ResourceData) : GoVal :=
  .map (mapSet "mobile_number" (.str (d.Get "mobile_number"))
    (mapSet "email" (.str (d.Get "email"))
      (mapSet "address" (.str (d.Get "address"))
        (mapSet "name" (.str (d.Get "name")) []))))

/-- The map that `resourcePersonUpdate` puts: the map `respMap` it got, with
the four fields of the resource written over it. -/
def updatePayload (d : ResourceData) (respMap : List (String × GoVal)) : GoVal :=
  .map (mapSet "mobile_number" (.str (d.Get "mobile_number"))
    (mapSet "email" (.str (d.Get "email"))
      (mapSet "address" (.str (d.Get "address"))
        (mapSet "name" (.str (d.Get "name")) respMap))))

/-! ## A concrete environment for the examples -/

/-- A JSON scanner that knows the documents of the examples and rejects all other input. -/
def sampleParse (data : String) : Option Json :=
  if data = "\x7b\"person_id\":42\x7d" then
    some (.obj [("person_id", .num false 42 0)])
  else if data = "\x7b\"person_id\":9007199254740993\x7d" then
    some (.obj [("person_id", .num false 9007199254740993 0)])
  else if data = "\x7b\"person_id\":1e400\x7d" then
    some (.obj [("person_id", .num false 1 400)])
  else none

/-- An environment whose network is the function `answer` and in which every
URL text is accepted and is its own parsed form (as it is for the URLs of the
examples). -/
def sampleEnv (answer : Request → DoResult) : Env :=
  { clientDo := fun _ req => answer req
    newRequest := fun _ url => .ok url
    parse := sampleParse
    encodeString := fun s => "\"" ++ s ++ "\""
    encodeFloat := F64.format0
    sprintV := fun _ => "<nil>" }

/-- The environment `sampleEnv answer`, except that request construction
fails for the URL texts `http://my host:8080/api/person` and
`http://my host:8080/api/person/7`, which have a blank in the host, as
`http.NewRequest` does. -/
def strictEnv (answer : Request → DoResult) : Env :=
  { sampleEnv answer with
    newRequest := fun _ url =>
      if url = "http://my host:8080/api/person" then
        .error "parse \"http://my host:8080/api/person\": invalid character \" \" in host name"
      else if url = "http://my host:8080/api/person/7" then
        .error "parse \"http://my host:8080/api/person/7\": invalid character \" \" in host name"
      else .ok url }

/-- A server that answers every request with the given status code and body. -/
def always (code : Int) (status : String) (body : Option (Except String String)) :
    Request → DoResult :=
  fun _ => { resp := some { statusCode := code, status := status, body := body }, err := none }

/-- A network on which every request fails without a response. -/
def refused : Request → DoResult :=
  fun _ => { resp := none, err := some "dial tcp 127.0.0.1:8080: connect: connection refused" }

/-- The session of the examples. -/
def sampleSession : PersonSession := (NewPersonSession "localhost:8080" []).1

/-- The response with status 200 and the object with `person_id` 42. -/
def person42 : Response :=
  { statusCode := 200, status := "200 OK", body := some (.ok "\x7b\"person_id\":42\x7d") }

/-- A server that answers every request with `person42`. -/
def personServer : Request → DoResult :=
  fun _ => { resp := some person42, err := none }

/-- A server that answers every request with status 200 and the object whose
`person_id` is `2^53 + 1`. -/
def bigIdServer : Request → DoResult :=
  always 200 "200 OK" (some (.ok "\x7b\"person_id\":9007199254740993\x7d"))

/-- A server that answers every request with status 200 and the object whose
`person_id` is written `1e400`, the integer `10^400`. -/
def hugeIdServer : Request → DoResult :=
  always 200 "200 OK" (some (.ok "\x7b\"person_id\":1e400\x7d"))

/-- The provider configuration of the examples. -/
def sampleConfig : ResourceData :=
  { fields := [("person_service_url", "localhost"), ("person_service_port", "8080")] }

/-- The resource of the examples: person 7. -/
def samplePerson : ResourceData :=
  { id := "7", fields := [("person_id", "7"), ("name", "Ada")] }

/-! ## Basic facts -/

theorem VerbCall.run_eq (env : Env) (personsess : PersonSession) (c : VerbCall) (tr : List Event) :
    c.run env personsess tr =
      restRequestInterfaceResponse env personsess c.verb c.uri c.payload c.response tr := by
  cases c with
  | Get uri response => rfl
  | Post uri payload response => rfl
  | Put uri payload response => rfl
  | Patch uri payload patchOp response => rfl
  | Delete uri params =>
    match params with
    | [] => rfl
    | [_] => rfl
    | [_, _] => rfl
    | _ :: _ :: _ :: _ => rfl

theorem restRequest_sends {env : Env} {personsess : PersonSession} {verb uri : String}
    {payload : GoVal} {req : Request} (tr : List Event)
    (hs : Sends env personsess verb uri payload req) :
    restRequest env personsess verb uri payload tr =
      match (env.clientDo tr req).resp with
      | none => (.panic nilDeref, tr ++ [Event.request req])
      | some resp =>
        if resp.statusCode > 299 then
          match resp.body with
          | none => (.panic nilDeref, tr ++ [Event.request req])
          | some _ =>
            (.ret (.error (.plain "Rest request error, returning to caller")),
             tr ++ [Event.request req] ++ [Event.bodyClose])
        else (.ret (.ok resp), tr ++ [Event.request req]) := by
  obtain ⟨body, parsed, hm, hn, hc, rfl⟩ := hs
  obtain ⟨cl, hcl⟩ := Option.isSome_iff_exists.mp hc
  simp only [restRequest, newPersonRequest, hm, hn, hcl, outgoing, jsonHeaders]

theorem call_answered {env : Env} {personsess : PersonSession} {verb uri : String}
    {payload : GoVal} {tr : List Event} {req : Request} {resp : Response}
    (response : Option GoVal)
    (hs : Sends env personsess verb uri payload req)
    (hd : (env.clientDo tr req).resp = some resp) :
    restRequestInterfaceResponse env personsess verb uri payload response tr =
      if resp.statusCode > 299 then
        match resp.body with
        | none =>
          { out := .panic nilDeref, target := response, trace := tr ++ [Event.request req] }
        | some _ =>
          { out := .ret (some (.plain "Rest request error, returning to caller")),
            target := response,
            trace := tr ++ [Event.request req] ++ [Event.bodyClose] }
      else
        match fetchBody env verb uri resp (tr ++ [Event.request req]) with
        | ((_, some err), tr2) => { out := .ret (some err), target := response, trace := tr2 }
        | ((res, none), tr2) =>
          if res.length = 0 then { out := .ret none, target := response, trace := tr2 }
          else
            { out := .ret none
              target := response.map (fun cur => (jsonUnmarshal env res cur).2)
              trace := tr2 ++ [Event.unmarshal res] } := by
  unfold restRequestInterfaceResponse
  rw [restRequest_sends tr hs, hd]
  by_cases h299 : resp.statusCode > 299
  · simp only [h299, if_true]
    cases resp.body <;> rfl
  · simp only [h299, if_false]

theorem call_unanswered {env : Env} {personsess : PersonSession} {verb uri : String}
    {payload : GoVal} {tr : List Event} {req : Request} (response : Option GoVal)
    (hs : Sends env personsess verb uri payload req)
    (hd : (env.clientDo tr req).resp = none) :
    restRequestInterfaceResponse env personsess verb uri payload response tr =
      { out := .panic nilDeref, target := response, trace := tr ++ [Event.request req] } := by
  unfold restRequestInterfaceResponse
  rw [restRequest_sends tr hs, hd]

theorem call_marshal_error {env : Env} {verb uri : String} {payload : GoVal} {e : String}
    (personsess : PersonSession) (response : Option GoVal) (tr : List Event)
    (hm : encodePayload env payload = .error e) :
    restRequestInterfaceResponse env personsess verb uri payload response tr =
      { out := .ret (some (.person
          { Verb := verb, Url := personsess.prefix_ ++ uri, err := some e })),
        target := response, trace := tr } := by
  simp only [restRequestInterfaceResponse, restRequest, hm]

theorem call_newRequest_error {env : Env} {personsess : PersonSession} {verb uri : String}
    {payload : GoVal} {body : Option String} {e : String}
    (response : Option GoVal) (tr : List Event)
    (hm : encodePayload env payload = .ok body)
    (hn : env.newRequest verb (personsess.prefix_ ++ uri) = .error e) :
    restRequestInterfaceResponse env personsess verb uri payload response tr =
      { out := .ret (some (.person
          { Verb := verb, Url := personsess.prefix_ ++ uri,
            err := some ("http.NewRequest failed: " ++ e) })),
        target := response, trace := tr } := by
  simp only [restRequestInterfaceResponse, restRequest, newPersonRequest, hm, hn]

theorem call_error_keeps_target {env : Env} {personsess : PersonSession} {verb uri : String}
    {payload : GoVal} {response : Option GoVal} {tr : List Event} {e : GoError}
    (h : (restRequestInterfaceResponse env personsess verb uri payload response tr).out =
      .ret (some e)) :
    (restRequestInterfaceResponse env personsess verb uri payload response tr).target =
      response := by
  unfold restRequestInterfaceResponse at h ⊢
  split
  · rfl
  · rfl
  · rename_i httpResponse tr1 heq
    rw [heq] at h
    simp only at h
    split
    · rfl
    · rename_i res tr2 heq2
      rw [heq2] at h
      simp only at h
      split at h
      · simp at h
      · simp at h

/-! ## Encodings -/

theorem mem_mapSet {α : Type} (k : String) (v : α) :
    ∀ (l : List (String × α)) (q : String × α), q ∈ mapSet k v l → q = (k, v) ∨ q ∈ l := by
  intro l
  induction l with
  | nil =>
    intro q hq
    simp [mapSet] at hq
    exact Or.inl hq
  | cons p rest ih =>
    intro q hq
    obtain ⟨k', v'⟩ := p
    simp only [mapSet] at hq
    split at hq
    · rcases List.mem_cons.mp hq with h | h
      · exact Or.inl h
      · exact Or.inr (List.mem_cons_of_mem _ h)
    · rcases List.mem_cons.mp hq with h | h
      · exact Or.inr (h ▸ List.mem_cons_self _ _)
      · rcases ih q h with h' | h'
        · exact Or.inl h'
        · exact Or.inr (List.mem_cons_of_mem _ h')

theorem mapGet_mapSet {α : Type} (k : String) (v : α) :
    ∀ l : List (String × α), mapGet k (mapSet k v l) = some v := by
  intro l
  induction l with
  | nil => simp [mapSet, mapGet]
  | cons p rest ih =>
    obtain ⟨k', v'⟩ := p
    simp only [mapSet]
    split
    · simp [mapGet]
    · rename_i hne
      simp [mapGet, hne, ih]

theorem mem_insertByKey {β : Type} (k : String) (v : β) :
    ∀ (l : List (String × β)) (q : String × β), q ∈ insertByKey k v l → q = (k, v) ∨ q ∈ l := by
  intro l
  induction l with
  | nil =>
    intro q hq
    simp [insertByKey] at hq
    exact Or.inl hq
  | cons p rest ih =>
    intro q hq
    obtain ⟨k', v'⟩ := p
    simp only [insertByKey] at hq
    split at hq
    · rcases List.mem_cons.mp hq with h | h
      · exact Or.inl h
      · exact Or.inr h
    · rcases List.mem_cons.mp hq with h | h
      · exact Or.inr (h ▸ List.mem_cons_self _ _)
      · rcases ih q h with h' | h'
        · exact Or.inl h'
        · exact Or.inr (List.mem_cons_of_mem _ h')

theorem mem_sortByKey {β : Type} :
    ∀ (l : List (String × β)) (q : String × β), q ∈ sortByKey l → q ∈ l := by
  intro l
  induction l with
  | nil => intro q hq; simp [sortByKey] at hq
  | cons p rest ih =>
    intro q hq
    obtain ⟨k, v⟩ := p
    simp only [sortByKey] at hq
    rcases mem_insertByKey k v _ q hq with h | h
    · exact h ▸ List.mem_cons_self _ _
    · exact List.mem_cons_of_mem _ (ih q h)

theorem encodeMembers_ok (env : Env) :
    ∀ l : List (String × Except String String), (∀ q ∈ l, ∃ s, q.2 = .ok s) →
      ∃ ms, encodeMembers env l = .ok ms := by
  intro l
  induction l with
  | nil => intro _; exact ⟨[], rfl⟩
  | cons p rest ih =>
    intro h
    obtain ⟨k, r⟩ := p
    obtain ⟨s, hs⟩ := h (k, r) (List.mem_cons_self _ _)
    simp only at hs
    subst hs
    obtain ⟨ms, hms⟩ := ih (fun q hq => h q (List.mem_cons_of_mem _ hq))
    simp only [encodeMembers, hms]
    exact ⟨_, rfl⟩

theorem collectElems_ok :
    ∀ l : List (Except String String), (∀ r ∈ l, ∃ s, r = .ok s) →
      ∃ ms, collectElems l = .ok ms := by
  intro l
  induction l with
  | nil => intro _; exact ⟨[], rfl⟩
  | cons r rest ih =>
    intro h
    obtain ⟨s, hs⟩ := h r (List.mem_cons_self _ _)
    subst hs
    obtain ⟨ms, hms⟩ := ih (fun q hq => h q (List.mem_cons_of_mem _ hq))
    simp only [collectElems, hms]
    exact ⟨_, rfl⟩

theorem mem_marshalFields (env : Env) :
    ∀ (l : List (String × GoVal)) (q : String × Except String String),
      q ∈ marshalFields env l → ∃ p ∈ l, q.2 = jsonMarshal env p.2 := by
  intro l
  induction l with
  | nil => intro q hq; simp [marshalFields] at hq
  | cons p rest ih =>
    intro q hq
    obtain ⟨k, v⟩ := p
    simp only [marshalFields] at hq
    rcases List.mem_cons.mp hq with h | h
    · exact ⟨(k, v), List.mem_cons_self _ _, by rw [h]⟩
    · obtain ⟨p, hp, hq'⟩ := ih q h
      exact ⟨p, List.mem_cons_of_mem _ hp, hq'⟩

theorem mem_marshalList (env : Env) :
    ∀ (l : List GoVal) (r : Except String String),
      r ∈ marshalList env l → ∃ x ∈ l, r = jsonMarshal env x := by
  intro l
  induction l with
  | nil => intro q hq; simp [marshalList] at hq
  | cons x rest ih =>
    intro r hr
    simp only [marshalList] at hr
    rcases List.mem_cons.mp hr with h | h
    · exact ⟨x, List.mem_cons_self _ _, h⟩
    · obtain ⟨y, hy, hr'⟩ := ih r h
      exact ⟨y, List.mem_cons_of_mem _ hy, hr'⟩

theorem map_encodes (env : Env) (kvs : List (String × GoVal))
    (h : ∀ q ∈ kvs, Encodes env q.2) : Encodes env (.map kvs) := by
  have hall : ∀ q ∈ sortByKey (marshalFields env kvs), ∃ s, q.2 = .ok s := by
    intro q hq
    obtain ⟨p, hp, hq'⟩ := mem_marshalFields env kvs q (mem_sortByKey _ q hq)
    obtain ⟨s, hs⟩ := h p hp
    exact ⟨s, by rw [hq', hs]⟩
  obtain ⟨ms, hms⟩ := encodeMembers_ok env _ hall
  unfold Encodes
  simp only [jsonMarshal, hms]
  exact ⟨_, rfl⟩

theorem slice_encodes (env : Env) (xs : List GoVal)
    (h : ∀ x ∈ xs, Encodes env x) : Encodes env (.slice xs) := by
  have hall : ∀ r ∈ marshalList env xs, ∃ s, r = .ok s := by
    intro r hr
    obtain ⟨x, hx, hr'⟩ := mem_marshalList env xs r hr
    obtain ⟨s, hs⟩ := h x hx
    exact ⟨s, by rw [hr', hs]⟩
  obtain ⟨ms, hms⟩ := collectElems_ok _ hall
  unfold Encodes
  simp only [jsonMarshal, hms]
  exact ⟨_, rfl⟩

mutual
theorem decodeJson_encodes (env : Env) : ∀ j : Json, Encodes env (decodeJson j)
  | .null => by
    simp only [Encodes, decodeJson, jsonMarshal]
    exact ⟨_, rfl⟩
  | .bool b => by
    simp only [Encodes, decodeJson, jsonMarshal]
    exact ⟨_, rfl⟩
  | .num neg mant exp10 => by
    simp only [Encodes, decodeJson]
    cases decodeNumber neg mant exp10 with
    | none =>
      simp only [jsonMarshal]
      exact ⟨_, rfl⟩
    | some f =>
      simp only [jsonMarshal]
      exact ⟨_, rfl⟩
  | .str s => by
    simp only [Encodes, decodeJson, jsonMarshal]
    exact ⟨_, rfl⟩
  | .arr xs => by
    simp only [decodeJson]
    exact slice_encodes env _ (decodeList_encodes env xs)
  | .obj kvs => by
    simp only [decodeJson]
    exact map_encodes env _ (decodeFields_encodes env kvs [] (by simp))
theorem decodeList_encodes (env : Env) : ∀ xs : List Json, ∀ x ∈ decodeList xs, Encodes env x
  | [] => by simp [decodeList]
  | y :: ys => by
    intro x hx
    simp only [decodeList] at hx
    rcases List.mem_cons.mp hx with h | h
    · rw [h]
      exact decodeJson_encodes env y
    · exact decodeList_encodes env ys x h
theorem decodeFields_encodes (env : Env) :
    ∀ (kvs : List (String × Json)) (acc : List (String × GoVal)),
      (∀ q ∈ acc, Encodes env q.2) → ∀ q ∈ decodeFields kvs acc, Encodes env q.2
  | [], acc => by
    intro h q hq
    simp only [decodeFields] at hq
    exact h q hq
  | (k, v) :: rest, acc => by
    intro h q hq
    simp only [decodeFields] at hq
    refine decodeFields_encodes env rest _ ?_ q hq
    intro q' hq'
    rcases mem_mapSet k _ acc q' hq' with h' | h'
    · rw [h']
      exact decodeJson_encodes env v
    · exact h q' h'
end

/-! ## float64 facts -/

theorem bitLength_zero (fuel : Nat) : bitLength fuel 0 = 0 := by
  cases fuel <;> simp [bitLength]

theorem bitLength_bounds (fuel : Nat) : ∀ n, n ≤ fuel →
    n < 2 ^ bitLength fuel n ∧ (0 < n → 0 < bitLength fuel n ∧ 2 ^ (bitLength fuel n - 1) ≤ n) := by
  induction fuel with
  | zero =>
    intro n hn
    have h0 : n = 0 := by omega
    subst h0
    simp [bitLength]
  | succ fuel ih =>
    intro n hn
    by_cases h0 : n = 0
    · subst h0
      simp [bitLength]
    · have hhalf : n / 2 ≤ fuel := by omega
      obtain ⟨hlt, hge⟩ := ih (n / 2) hhalf
      simp only [bitLength, h0, if_false]
      refine ⟨?_, fun _ => ⟨Nat.succ_pos _, ?_⟩⟩
      · rw [pow_succ]
        omega
      · simp only [Nat.add_sub_cancel]
        by_cases hz : n / 2 = 0
        · rw [hz, bitLength_zero]
          simp
          omega
        · obtain ⟨hb, hle⟩ := hge (Nat.pos_of_ne_zero hz)
          have hp : 2 ^ bitLength fuel (n / 2) = 2 ^ (bitLength fuel (n / 2) - 1) * 2 := by
            rw [← pow_succ]
            congr 1
            omega
          rw [hp]
          omega

theorem log2_bounds (n : Nat) (h : 0 < n) : 2 ^ log2 n ≤ n ∧ n < 2 ^ (log2 n + 1) := by
  obtain ⟨hlt, hge⟩ := bitLength_bounds n n (Nat.le_refl n)
  obtain ⟨hb, hle⟩ := hge h
  unfold log2
  refine ⟨hle, ?_⟩
  have : bitLength n n - 1 + 1 = bitLength n n := by omega
  rw [this]
  exact hlt

theorem roundHalfEven_one (a : Nat) : roundHalfEven a 1 = a := by
  simp [roundHalfEven, Nat.mod_one]

theorem roundHalfEven_mul (n d : Nat) (hd : 0 < d) : roundHalfEven (n * d) d = n := by
  have hq : n * d / d = n := Nat.mul_div_cancel n hd
  have hr : n * d % d = 0 := Nat.mul_mod_left n d
  simp only [roundHalfEven, hq, hr]
  have : ¬ (2 * 0 > d ∨ 2 * 0 = d ∧ n % 2 = 1) := by omega
  simp only [this, if_false]


theorem log2_one : log2 1 = 0 := by decide

/-- The float64 of a natural number below `2^53` is exact. -/
theorem ofRatio_exact (n : Nat) (hpos : 0 < n) (h : n < 2 ^ 53) :
    F64.ofRatio false n 1 =
      some { neg := false, mant := n * 2 ^ (52 - log2 n), exp := (log2 n : Int) - 52 } := by
  obtain ⟨hle, hlt⟩ := log2_bounds n hpos
  have hL : log2 n ≤ 52 := by
    by_contra hc
    have h53 : 53 ≤ log2 n := by omega
    have : 2 ^ 53 ≤ 2 ^ log2 n := Nat.pow_le_pow_right (by decide) h53
    omega
  have hn0 : n ≠ 0 := by omega
  have hfl : floorLog2Ratio n 1 = (log2 n : Int) := by
    simp only [floorLog2Ratio, log2_one]
    simp [hle]
  have hmax : max ((log2 n : Int) - 52) (-1074) = (log2 n : Int) - 52 := by
    apply max_eq_left
    omega
  simp only [F64.ofRatio, hn0, if_false, hfl, hmax]
  by_cases h52 : log2 n = 52
  · have hne : ¬ n = 9007199254740992 := by omega
    simp only [h52]
    simp [roundHalfEven_one, hne]
  · have hneg : ¬ (0 : Int) ≤ (log2 n : Int) - 52 := by omega
    have hs : (-((log2 n : Int) - 52)).toNat = 52 - log2 n := by omega
    simp only [hneg, if_false, hs, roundHalfEven_one]
    have hm : n * 2 ^ (52 - log2 n) < 2 ^ 53 := by
      have h1 : n * 2 ^ (52 - log2 n) < 2 ^ (log2 n + 1) * 2 ^ (52 - log2 n) :=
        Nat.mul_lt_mul_of_pos_right hlt (Nat.pow_pos (by decide))
      have h2 : 2 ^ (log2 n + 1) * 2 ^ (52 - log2 n) = 2 ^ 53 := by
        rw [← pow_add]
        congr 1
        omega
      omega
    have hne : n * 2 ^ (52 - log2 n) ≠ 2 ^ 53 := by omega
    have hexp : ¬ ((log2 n : Int) - 52 > 971) := by omega
    simp only [hne, if_false, hexp]

theorem format0_exact (n L : Nat) (hL : L ≤ 52) :
    F64.format0 { neg := false, mant := n * 2 ^ (52 - L), exp := (L : Int) - 52 } =
      Nat.repr n := by
  by_cases h52 : L = 52
  · subst h52
    simp [F64.format0]
  · have hneg : ¬ (0 : Int) ≤ (L : Int) - 52 := by omega
    have hs : (-((L : Int) - 52)).toNat = 52 - L := by omega
    have hd : 0 < 2 ^ (52 - L) := Nat.pow_pos (by decide)
    simp only [F64.format0, hneg, if_false, hs, roundHalfEven_mul n _ hd]
    simp

/-- A JSON integer literal below `2^53` decodes to a float64 that `%.0f`
prints as the decimal digits of the literal. -/
theorem decodeNumber_format0_lt (n : Nat) (h : n < 2 ^ 53) :
    ∃ f, decodeNumber false n 0 = some f ∧ F64.format0 f = Nat.repr n := by
  by_cases h0 : n = 0
  · subst h0
    exact ⟨_, rfl, by decide⟩
  · have hpos : 0 < n := Nat.pos_of_ne_zero h0
    obtain ⟨hle, -⟩ := log2_bounds n hpos
    have hL : log2 n ≤ 52 := by
      by_contra hc
      have h53 : 53 ≤ log2 n := by omega
      have : 2 ^ 53 ≤ 2 ^ log2 n := Nat.pow_le_pow_right (by decide) h53
      omega
    refine ⟨_, ?_, format0_exact n (log2 n) hL⟩
    simp only [decodeNumber, le_refl, if_true, Int.toNat_zero, pow_zero, mul_one]
    exact ofRatio_exact n hpos h

/-- The same up to and including `2^53`, the last integer before the first
one that float64 cannot hold. -/
theorem decodeNumber_format0 (n : Nat) (h : n ≤ 2 ^ 53) :
    ∃ f, decodeNumber false n 0 = some f ∧ F64.format0 f = Nat.repr n := by
  by_cases h53 : n = 2 ^ 53
  · subst h53
    exact ⟨{ neg := false, mant := 2 ^ 52, exp := 1 }, by decide, by decide⟩
  · exact decodeNumber_format0_lt n (by omega)

/-- For a float64 that is not negative, `%.0f` gives decimal digits only. -/
theorem format0_digits (f : F64) (h : f.neg = false) : ∃ k, F64.format0 f = Nat.repr k := by
  refine ⟨if 0 ≤ f.exp then f.mant * 2 ^ f.exp.toNat
    else roundHalfEven f.mant (2 ^ (-f.exp).toNat), ?_⟩
  simp [F64.format0, h]

/-! ## Traces and calls -/

theorem requestsOf_append (a b : List Event) :
    requestsOf (a ++ b) = requestsOf a ++ requestsOf b := by
  induction a with
  | nil => rfl
  | cons ev rest ih =>
    cases ev <;> simp [requestsOf, ih]

theorem fetchBody_requests (env : Env) (verb url : String) (resp : Response) (tr : List Event) :
    requestsOf (fetchBody env verb url resp tr).2 = requestsOf tr := by
  unfold fetchBody
  split
  · rfl
  · split
    · rfl
    · split <;> simp [requestsOf_append, requestsOf]
    · simp [requestsOf_append, requestsOf]

theorem call_requests {env : Env} {personsess : PersonSession} {verb uri : String}
    {payload : GoVal} {req : Request} (response : Option GoVal) (tr : List Event)
    (hs : Sends env personsess verb uri payload req) :
    requestsOf (restRequestInterfaceResponse env personsess verb uri payload response tr).trace =
      requestsOf tr ++ [req] := by
  cases hd : (env.clientDo tr req).resp with
  | none =>
    rw [call_unanswered response hs hd]
    simp [requestsOf_append, requestsOf]
  | some resp =>
    rw [call_answered response hs hd]
    split
    · split <;> simp [requestsOf_append, requestsOf]
    · have hf := fetchBody_requests env verb uri resp (tr ++ [Event.request req])
      split
      · rename_i heq
        rw [heq] at hf
        simpa [requestsOf_append, requestsOf] using hf
      · rename_i heq
        rw [heq] at hf
        split <;> simpa [requestsOf_append, requestsOf] using hf

theorem call_delivers {env : Env} {personsess : PersonSession} {verb uri : String}
    {payload : GoVal} {tr : List Event} {req : Request} {resp : Response} {res : String}
    {m : List (String × GoVal)} (cur : GoVal)
    (hs : Sends env personsess verb uri payload req)
    (hd : (env.clientDo tr req).resp = some resp)
    (hv : Delivers env resp res m) :
    restRequestInterfaceResponse env personsess verb uri payload (some cur) tr =
      { out := .ret none, target := some (.map m), trace := afterDecode tr req res } := by
  obtain ⟨hlo, hhi, h204, hb, hne, kvs, hp, hm⟩ := hv
  have h299 : ¬ resp.statusCode > 299 := by omega
  have hlt : ¬ resp.statusCode < 200 := by omega
  rw [call_answered (some cur) hs hd]
  simp only [h299, hlt, or_self, if_false, fetchBody, h204, hb, hne, jsonUnmarshal, hp,
    Option.map_some', decodeJson, hm, afterDecode]

theorem delivers_encodes {env : Env} {resp : Response} {res : String}
    {m : List (String × GoVal)} (hv : Delivers env resp res m) :
    ∀ q ∈ m, Encodes env q.2 := by
  obtain ⟨-, -, -, -, -, kvs, -, hm⟩ := hv
  rw [← hm]
  exact decodeFields_encodes env kvs [] (by simp)

theorem encodePayload_map {env : Env} {kvs : List (String × GoVal)}
    (h : Encodes env (.map kvs)) :
    ∃ b, encodePayload env (.map kvs) = .ok (some b) := by
  obtain ⟨s, hs⟩ := h
  exact ⟨s, by simp only [encodePayload, hs]⟩

theorem storeIdentity_float (m : List (String × GoVal)) (f : F64) (err : Option GoError)
    (d : ResourceData) (tr : List Event) (h : mapGet "person_id" m = some (.float64 f)) :
    storeIdentity (some (.map m)) err d tr =
      { out := .ret err, d := (d.SetId (F64.format0 f)).Set "person_id" (F64.format0 f),
        trace := tr } := by
  simp only [storeIdentity, h]

theorem get_set (d : ResourceData) (k v : String) : (d.Set k v).Get k = v := by
  simp [ResourceData.Set, ResourceData.Get, mapGet_mapSet]

/-! ## Handlers and the configured session -/

theorem storeIdentity_trace (v : Option GoVal) (err : Option GoError) (d : ResourceData)
    (tr : List Event) : (storeIdentity v err d tr).trace = tr := by
  unfold storeIdentity
  split
  · split <;> rfl
  · rfl

theorem create_trace (env : Env) (d : ResourceData) (client : PersonSession) (tr : List Event) :
    (resourcePersonCreate env d client tr).trace =
      (client.Post env "api/person"
        (.map (mapSet "mobile_number" (.str (d.Get "mobile_number"))
          (mapSet "email" (.str (d.Get "email"))
            (mapSet "address" (.str (d.Get "address"))
              (mapSet "name" (.str (d.Get "name")) [])))))
        (some .nil) tr).trace := by
  simp only [resourcePersonCreate]
  split <;> simp [storeIdentity_trace]

theorem read_trace (env : Env) (d : ResourceData) (client : PersonSession) (tr : List Event) :
    (ResourcePersonRead env d client tr).trace =
      (client.Get env ("api/person/" ++ d.Get "person_id") (some .nil) tr).trace := by
  simp only [ResourcePersonRead]
  split <;> simp [storeIdentity_trace]

theorem create_payload_encodes (env : Env) (d : ResourceData) :
    Encodes env (createPayload d) := by
  apply map_encodes
  intro q hq
  have hstr : ∀ s, Encodes env (.str s) := by
    intro s
    simp only [Encodes, jsonMarshal]
    exact ⟨_, rfl⟩
  rcases mem_mapSet _ _ _ q hq with h | h
  · rw [h]; exact hstr _
  · rcases mem_mapSet _ _ _ q h with h | h
    · rw [h]; exact hstr _
    · rcases mem_mapSet _ _ _ q h with h | h
      · rw [h]; exact hstr _
      · rcases mem_mapSet _ _ _ q h with h | h
        · rw [h]; exact hstr _
        · simp at h

theorem update_payload_encodes (env : Env) (d : ResourceData) (m : List (String × GoVal))
    (hm : ∀ q ∈ m, Encodes env q.2) :
    Encodes env (updatePayload d m) := by
  apply map_encodes
  intro q hq
  have hstr : ∀ s, Encodes env (.str s) := by
    intro s
    simp only [Encodes, jsonMarshal]
    exact ⟨_, rfl⟩
  rcases mem_mapSet _ _ _ q hq with h | h
  · rw [h]; exact hstr _
  · rcases mem_mapSet _ _ _ q h with h | h
    · rw [h]; exact hstr _
    · rcases mem_mapSet _ _ _ q h with h | h
      · rw [h]; exact hstr _
      · rcases mem_mapSet _ _ _ q h with h | h
        · rw [h]; exact hstr _
        · exact hm q h

theorem configured_base (cfg : ResourceData) :
    (providerConfigure cfg).1.prefix_ =
      "http://" ++ cfg.Get "person_service_url" ++ ":" ++ cfg.Get "person_service_port" ++ "/" := by
  simp [providerConfigure, NewPersonSession, String.append_assoc]

theorem configured_client (cfg : ResourceData) :
    (providerConfigure cfg).1.client.isSome = true := by
  simp [providerConfigure, NewPersonSession]

theorem collection_url (cfg : ResourceData) :
    (providerConfigure cfg).1.prefix_ ++ "api/person" =
      "http://" ++ cfg.Get "person_service_url" ++ ":" ++ cfg.Get "person_service_port" ++
        "/api/person" := by
  rw [configured_base]
  simp [String.append_assoc]

theorem person_url (cfg : ResourceData) (i : String) :
    (providerConfigure cfg).1.prefix_ ++ ("api/person/" ++ i) =
      "http://" ++ cfg.Get "person_service_url" ++ ":" ++ cfg.Get "person_service_port" ++
        "/api/person/" ++ i := by
  rw [configured_base]
  have h : "/" ++ ("api/person/" ++ i) = "/api/person/" ++ i := by
    rw [← String.append_assoc]
    rfl
  simp [String.append_assoc, h]


theorem stored_identity (d : ResourceData) (s : String) :
    ((d.SetId s).Set "person_id" s).id = s ∧ ((d.SetId s).Set "person_id" s).Get "person_id" = s :=
  ⟨rfl, get_set _ _ _⟩

theorem outside_2xx_error (env : Env) (personsess : PersonSession)
    (c : VerbCall) (tr : List Event) (resp : Response)
    (h : Answered env personsess c.verb c.uri c.payload tr resp)
    (hs : resp.statusCode < 200 ∨ resp.statusCode > 299)
    (hb : resp.statusCode < 200 ∨ resp.body.isSome = true) :
    ∃ e, (c.run env personsess tr).out = .ret (some e) := by
  obtain ⟨req, hsend, hd⟩ := h
  rw [VerbCall.run_eq, call_answered c.response hsend hd]
  by_cases h299 : resp.statusCode > 299
  · simp only [h299, if_true]
    cases hbody : resp.body with
    | none =>
      rcases hb with hb | hb
      · omega
      · simp [hbody] at hb
    | some b => exact ⟨_, rfl⟩
  · have hlt : resp.statusCode < 200 := by omega
    have h204 : resp.statusCode ≠ 204 := by omega
    simp only [h299, if_false, fetchBody, h204]
    cases hbody : resp.body with
    | none => exact ⟨_, rfl⟩
    | some b =>
      cases b with
      | error err => exact ⟨_, rfl⟩
      | ok res =>
        simp only [hlt, true_or, if_true]
        exact ⟨_, rfl⟩

theorem ofRatio_neg {neg : Bool} {a b : Nat} {f : F64} (h : F64.ofRatio neg a b = some f) :
    f.neg = neg := by
  by_cases ha : a = 0
  · simp only [F64.ofRatio, ha, if_true] at h
    injection h with h
    rw [← h]
  · simp only [F64.ofRatio, ha, if_false, Option.ite_none_left_eq_some] at h
    obtain ⟨-, h⟩ := h
    injection h with h
    rw [← h]

theorem decodeNumber_neg {neg : Bool} {mant : Nat} {exp10 : Int} {f : F64}
    (h : decodeNumber neg mant exp10 = some f) : f.neg = neg := by
  unfold decodeNumber at h
  split at h <;> exact ofRatio_neg h

theorem store_delivered {env : Env} {personsess : PersonSession} {verb uri : String}
    {payload : GoVal} {tr : List Event} {req : Request} {resp : Response} {res : String}
    {m : List (String × GoVal)} {n : Nat} {f : F64} (d : ResourceData)
    (hf : decodeNumber false n 0 = some f)
    (hs : Sends env personsess verb uri payload req)
    (hd : (env.clientDo tr req).resp = some resp)
    (hv : Delivers env resp res m)
    (hid : mapGet "person_id" m = some (decodeJson (.num false n 0))) :
    restRequestInterfaceResponse env personsess verb uri payload (some .nil) tr =
      { out := .ret none, target := some (.map m), trace := afterDecode tr req res } ∧
    storeIdentity (some (.map m)) none d (afterDecode tr req res) =
      { out := .ret none, d := (d.SetId (F64.format0 f)).Set "person_id" (F64.format0 f),
        trace := afterDecode tr req res } := by
  have hid' : mapGet "person_id" m = some (.float64 f) := by
    simpa only [decodeJson, hf] using hid
  exact ⟨call_delivers .nil hs hd hv, storeIdentity_float _ _ _ _ _ hid'⟩

/-! ## The claims -/

/-- C3 (the code departs from the claim): when the request is handed to
`client.Do` and `client.Do` yields no response, `restRequest` does not return
an error: after its single call of `client.Do` it reads `resp.StatusCode` of
the nil response and panics. -/
theorem C3_restRequest_panics_without_response (env : Env) (personsess : PersonSession)
    (verb uri : String) (payload : GoVal) (tr : List Event)
    (h : Unanswered env personsess verb uri payload tr) :
    ∃ body parsed, encodePayload env payload = .ok body ∧
      env.newRequest verb (personsess.prefix_ ++ uri) = .ok parsed ∧
      restRequest env personsess verb uri payload tr =
        (.panic nilDeref, tr ++ [Event.request (outgoing verb parsed body)]) := by
  obtain ⟨req, hs, hd⟩ := h
  have hr := restRequest_sends tr hs
  obtain ⟨body, parsed, hm, hn, -, rfl⟩ := hs
  refine ⟨body, parsed, hm, hn, ?_⟩
  rw [hr, hd]

/-- C3, at a GET on a network that refuses the connection. -/
theorem C3_connection_refused_panics :
    Unanswered (sampleEnv refused) sampleSession "GET" "api/person/7" .nil [] ∧
    ∃ body parsed, encodePayload (sampleEnv refused) .nil = .ok body ∧
      (sampleEnv refused).newRequest "GET" (sampleSession.prefix_ ++ "api/person/7") =
        .ok parsed ∧
      restRequest (sampleEnv refused) sampleSession "GET" "api/person/7" .nil [] =
        (.panic nilDeref, [] ++ [Event.request (outgoing "GET" parsed body)]) :=
  have h : Unanswered (sampleEnv refused) sampleSession "GET" "api/person/7" .nil [] :=
    ⟨_, ⟨none, _, rfl, rfl, by decide, rfl⟩, rfl⟩
  ⟨h, C3_restRequest_panics_without_response _ _ _ _ _ _ h⟩

/-- C2 (the code departs from the claim): for each of the five verb
methods, when the response has a status code above 299 and a body, the error
returned is the fixed text made by `errors.New`: it is the same for every
status code, verb and URL and carries none of them. -/
theorem C2_error_above_299_is_fixed_text (env : Env) (personsess : PersonSession) (c : VerbCall)
    (tr : List Event) (resp : Response)
    (h : Answered env personsess c.verb c.uri c.payload tr resp)
    (hs : resp.statusCode > 299) (hb : resp.body.isSome = true) :
    ∃ e, (c.run env personsess tr).out = .ret (some e) ∧
      e.Error = "Rest request error, returning to caller" := by
  obtain ⟨req, hsend, hd⟩ := h
  obtain ⟨b, hb'⟩ := Option.isSome_iff_exists.mp hb
  rw [VerbCall.run_eq, call_answered c.response hsend hd]
  simp only [hs, if_true, hb']
  exact ⟨_, rfl, rfl⟩

/-- C2, at a GET answered with status 404: the message of the error does not
contain the text `404`. -/
theorem C2_status_404_not_in_message :
    (Answered (sampleEnv (always 404 "404 Not Found" (some (.ok "no such person"))))
        sampleSession (VerbCall.Get "api/person/7" (some .nil)).verb
        (VerbCall.Get "api/person/7" (some .nil)).uri
        (VerbCall.Get "api/person/7" (some .nil)).payload []
        { statusCode := 404, status := "404 Not Found", body := some (.ok "no such person") } ∧
      (404 : Int) > 299) ∧
    (∃ e, ((VerbCall.Get "api/person/7" (some .nil)).run
          (sampleEnv (always 404 "404 Not Found" (some (.ok "no such person"))))
          sampleSession []).out = .ret (some e) ∧
        e.Error = "Rest request error, returning to caller") ∧
    ¬ "404".toList <:+: "Rest request error, returning to caller".toList :=
  have h : Answered (sampleEnv (always 404 "404 Not Found" (some (.ok "no such person"))))
      sampleSession (VerbCall.Get "api/person/7" (some .nil)).verb
      (VerbCall.Get "api/person/7" (some .nil)).uri
      (VerbCall.Get "api/person/7" (some .nil)).payload []
      { statusCode := 404, status := "404 Not Found", body := some (.ok "no such person") } :=
    ⟨_, ⟨none, _, rfl, rfl, by decide, rfl⟩, rfl⟩
  ⟨⟨h, by decide⟩,
   C2_error_above_299_is_fixed_text _ _ _ _ _ h (by decide) rfl, by decide⟩

/-- C5: for each of the five verb methods, every response with a status code
outside [200,299] gives a non-nil error: below 200 whether the body is
absent, unreadable or readable, and above 299 whether the body is readable or
not. Above 299 the response is taken to have a non-nil `Body`, as every
response of Go's `http.Client`, the only client a session gets, has. -/
theorem C5_status_outside_2xx_is_an_error (env : Env) (personsess : PersonSession)
    (c : VerbCall) (tr : List Event) (resp : Response)
    (h : Answered env personsess c.verb c.uri c.payload tr resp)
    (hs : resp.statusCode < 200 ∨ resp.statusCode > 299)
    (hb : resp.statusCode < 200 ∨ resp.body.isSome = true) :
    ∃ e, (c.run env personsess tr).out = .ret (some e) :=
  outside_2xx_error env personsess c tr resp h hs hb

/-- C5, at a DELETE answered with status 404 and a body that cannot be read,
and at a GET answered with status 101 and no body. -/
theorem C5_delete_404_and_get_101 :
    (Answered (sampleEnv (always 404 "404 Not Found" (some (.error "unexpected EOF"))))
        sampleSession (VerbCall.Delete "api/person/7" []).verb
        (VerbCall.Delete "api/person/7" []).uri (VerbCall.Delete "api/person/7" []).payload []
        { statusCode := 404, status := "404 Not Found", body := some (.error "unexpected EOF") } ∧
      ∃ e, ((VerbCall.Delete "api/person/7" []).run
        (sampleEnv (always 404 "404 Not Found" (some (.error "unexpected EOF"))))
        sampleSession []).out = .ret (some e)) ∧
    (Answered (sampleEnv (always 101 "101 Switching Protocols" none))
        sampleSession (VerbCall.Get "api/person/7" (some .nil)).verb
        (VerbCall.Get "api/person/7" (some .nil)).uri
        (VerbCall.Get "api/person/7" (some .nil)).payload []
        { statusCode := 101, status := "101 Switching Protocols", body := none } ∧
      ∃ e, ((VerbCall.Get "api/person/7" (some .nil)).run
        (sampleEnv (always 101 "101 Switching Protocols" none)) sampleSession []).out =
          .ret (some e)) :=
  have h1 : Answered (sampleEnv (always 404 "404 Not Found" (some (.error "unexpected EOF"))))
      sampleSession (VerbCall.Delete "api/person/7" []).verb
      (VerbCall.Delete "api/person/7" []).uri (VerbCall.Delete "api/person/7" []).payload []
      { statusCode := 404, status := "404 Not Found", body := some (.error "unexpected EOF") } :=
    ⟨_, ⟨none, _, rfl, rfl, by decide, rfl⟩, rfl⟩
  have h2 : Answered (sampleEnv (always 101 "101 Switching Protocols" none))
      sampleSession (VerbCall.Get "api/person/7" (some .nil)).verb
      (VerbCall.Get "api/person/7" (some .nil)).uri
      (VerbCall.Get "api/person/7" (some .nil)).payload []
      { statusCode := 101, status := "101 Switching Protocols", body := none } :=
    ⟨_, ⟨none, _, rfl, rfl, by decide, rfl⟩, rfl⟩
  ⟨⟨h1, C5_status_outside_2xx_is_an_error _ _ _ _ _ h1 (Or.inr (by decide)) (Or.inr rfl)⟩,
   ⟨h2, C5_status_outside_2xx_is_an_error _ _ _ _ _ h2 (Or.inl (by decide))
     (Or.inl (by decide))⟩⟩

/-- Outside what Go's `http.Client` returns: a response with a status code
above 299 and a nil `Body` makes `restRequest` panic in `resp.Body.Close()`. -/
theorem close_of_nil_body_panics (env : Env) (personsess : PersonSession)
    (c : VerbCall) (tr : List Event) (resp : Response)
    (h : Answered env personsess c.verb c.uri c.payload tr resp)
    (hs : resp.statusCode > 299) (hb : resp.body = none) :
    (c.run env personsess tr).out = .panic nilDeref := by
  obtain ⟨req, hsend, hd⟩ := h
  rw [VerbCall.run_eq, call_answered c.response hsend hd]
  simp only [hs, if_true, hb]

/-- C1 (the code departs from the claim): whenever the `Get` that
`ResourcePersonRead` makes returns an error `e`, the handler does not return
`e`: the response variable is still nil, and the type assertion
`robj.(map[string]interface{})` panics. -/
theorem C1_read_panics_when_get_fails (env : Env) (d : ResourceData) (client : PersonSession)
    (tr : List Event) (e : GoError)
    (h : (client.Get env ("api/person/" ++ d.Get "person_id") (some .nil) tr).out =
      .ret (some e)) :
    (ResourcePersonRead env d client tr).out =
      .panic (conversionPanic "map[string]interface {}") := by
  have ht := call_error_keeps_target h
  simp only [PersonSession.Get] at h ht
  simp only [ResourcePersonRead, PersonSession.Get, h, ht, storeIdentity]

/-- C1, at a read of person 7 that the server answers with status 404. -/
theorem C1_read_of_deleted_person_panics :
    ((sampleSession.Get (sampleEnv (always 404 "404 Not Found" (some (.ok "no such person"))))
        ("api/person/" ++ ResourceData.Get { id := "7", fields := [("person_id", "7")] }
          "person_id") (some .nil) []).out =
      .ret (some (.plain "Rest request error, returning to caller"))) ∧
    (ResourcePersonRead (sampleEnv (always 404 "404 Not Found" (some (.ok "no such person"))))
        { id := "7", fields := [("person_id", "7")] } sampleSession []).out =
      .panic (conversionPanic "map[string]interface {}") :=
  have h : (sampleSession.Get
      (sampleEnv (always 404 "404 Not Found" (some (.ok "no such person"))))
      ("api/person/" ++ ResourceData.Get { id := "7", fields := [("person_id", "7")] }
        "person_id") (some .nil) []).out =
      .ret (some (.plain "Rest request error, returning to caller")) := by
    rfl
  ⟨h, C1_read_panics_when_get_fails _ _ _ _ _ h⟩

/-- The same defect in `resourcePersonCreate`: an error of `Post` ends in a panic. -/
theorem create_panics_when_post_fails (env : Env) (d : ResourceData) (client : PersonSession)
    (tr : List Event) (e : GoError)
    (h : (client.Post env "api/person"
        (.map (mapSet "mobile_number" (.str (d.Get "mobile_number"))
          (mapSet "email" (.str (d.Get "email"))
            (mapSet "address" (.str (d.Get "address"))
              (mapSet "name" (.str (d.Get "name")) [])))))
        (some .nil) tr).out = .ret (some e)) :
    (resourcePersonCreate env d client tr).out =
      .panic (conversionPanic "map[string]interface {}") := by
  have ht := call_error_keeps_target h
  simp only [PersonSession.Post] at h ht
  simp only [resourcePersonCreate, PersonSession.Post, h, ht, storeIdentity]

/-- The same defect in `resourcePersonUpdate`: an error of its `Get` ends in a panic. -/
theorem update_panics_when_get_fails (env : Env) (d : ResourceData) (client : PersonSession)
    (tr : List Event) (e : GoError)
    (h : (client.Get env ("api/person/" ++ d.Get "person_id") (some .nil) tr).out =
      .ret (some e)) :
    (resourcePersonUpdate env d client tr).out =
      .panic (conversionPanic "map[string]interface {}") := by
  have ht := call_error_keeps_target h
  simp only [PersonSession.Get] at h ht
  simp only [resourcePersonUpdate, PersonSession.Get, h, ht]

/-- The handler `resourcePersonDelete` does return what its `Delete` returns. -/
theorem delete_returns_session_result (env : Env) (d : ResourceData) (client : PersonSession)
    (tr : List Event) :
    (resourcePersonDelete env d client tr).out =
      (client.Delete env ("api/person/" ++ d.Get "person_id") [] tr).out := rfl

/-- C4 (the code departs from the claim): for each of the five verb methods,
when the response has a 2xx status other than 204 and a non-empty body for
which `json.Unmarshal` reports an error, the result is a nil error: the error
of `json.Unmarshal` is dropped. -/
theorem C4_decode_failure_returns_nil (env : Env) (personsess : PersonSession) (c : VerbCall)
    (tr : List Event) (resp : Response) (res : String)
    (h : Answered env personsess c.verb c.uri c.payload tr resp)
    (hlo : 200 ≤ resp.statusCode) (hhi : resp.statusCode ≤ 299) (h204 : resp.statusCode ≠ 204)
    (hb : resp.body = some (.ok res)) (hne : res.length ≠ 0)
    (_hbad : (jsonUnmarshal env res .nil).1 ≠ none) :
    (c.run env personsess tr).out = .ret none := by
  obtain ⟨req, hsend, hd⟩ := h
  have h299 : ¬ resp.statusCode > 299 := by omega
  have hlt : ¬ resp.statusCode < 200 := by omega
  rw [VerbCall.run_eq, call_answered c.response hsend hd]
  simp only [h299, hlt, or_self, if_false, fetchBody, h204, hb, hne]

/-- C4, at a GET answered with status 200 and an HTML page. -/
theorem C4_html_body_reported_as_success :
    (Answered (sampleEnv (always 200 "200 OK" (some (.ok "<html>oops</html>")))) sampleSession
        (VerbCall.Get "api/person/7" (some .nil)).verb
        (VerbCall.Get "api/person/7" (some .nil)).uri
        (VerbCall.Get "api/person/7" (some .nil)).payload []
        { statusCode := 200, status := "200 OK", body := some (.ok "<html>oops</html>") } ∧
      (200 : Int) ≤ 200 ∧ (200 : Int) ≤ 299 ∧ (200 : Int) ≠ 204 ∧
      "<html>oops</html>".length ≠ 0 ∧
      (jsonUnmarshal (sampleEnv (always 200 "200 OK" (some (.ok "<html>oops</html>"))))
        "<html>oops</html>" .nil).1 ≠ none) ∧
    ((VerbCall.Get "api/person/7" (some .nil)).run
      (sampleEnv (always 200 "200 OK" (some (.ok "<html>oops</html>")))) sampleSession []).out =
      .ret none :=
  have h : Answered (sampleEnv (always 200 "200 OK" (some (.ok "<html>oops</html>"))))
      sampleSession (VerbCall.Get "api/person/7" (some .nil)).verb
      (VerbCall.Get "api/person/7" (some .nil)).uri
      (VerbCall.Get "api/person/7" (some .nil)).payload []
      { statusCode := 200, status := "200 OK", body := some (.ok "<html>oops</html>") } :=
    ⟨_, ⟨none, _, rfl, rfl, by decide, rfl⟩, rfl⟩
  have hbad : (jsonUnmarshal (sampleEnv (always 200 "200 OK" (some (.ok "<html>oops</html>"))))
      "<html>oops</html>" .nil).1 ≠ none := by decide
  ⟨⟨h, by decide, by decide, by decide, by decide, hbad⟩,
   C4_decode_failure_returns_nil _ _ _ _ _ _ h (by decide) (by decide) (by decide) rfl
     (by decide) hbad⟩

/-- C6: for each of the five verb methods, when the response has status
204, `fetchBody` returns an empty result and a nil error and adds no event
(the body is not read), the method returns a nil error, the caller's response
variable keeps its value, and the only event of the call is the request:
the body is not read and `json.Unmarshal` is not called. -/
theorem C6_status_204_is_success_without_decode (env : Env) (personsess : PersonSession)
    (c : VerbCall) (tr : List Event) (resp : Response)
    (h : Answered env personsess c.verb c.uri c.payload tr resp)
    (h204 : resp.statusCode = 204) :
    (∀ tr1, fetchBody env c.verb c.uri resp tr1 = (("", none), tr1)) ∧
    (c.run env personsess tr).out = .ret none ∧
    (c.run env personsess tr).target = c.response ∧
    ∃ body parsed, encodePayload env c.payload = .ok body ∧
      env.newRequest c.verb (personsess.prefix_ ++ c.uri) = .ok parsed ∧
      (c.run env personsess tr).trace =
        tr ++ [Event.request (outgoing c.verb parsed body)] := by
  obtain ⟨req, hsend, hd⟩ := h
  have hr := call_answered c.response hsend hd
  obtain ⟨body, parsed, hm, hn, -, rfl⟩ := hsend
  have h299 : ¬ resp.statusCode > 299 := by omega
  have hf : ∀ tr1, fetchBody env c.verb c.uri resp tr1 = (("", none), tr1) := by
    intro tr1
    simp only [fetchBody, h204, if_true]
  rw [VerbCall.run_eq, hr]
  simp only [h299, if_false, hf]
  exact ⟨fun _ => trivial, rfl, rfl, body, parsed, hm, hn, rfl⟩

/-- C6, at a GET answered with status 204 and a body that is never read: the
response variable, which held the text `before`, still holds it. -/
theorem C6_get_answered_204 :
    (Answered (sampleEnv (always 204 "204 No Content" (some (.ok "ignored")))) sampleSession
        (VerbCall.Get "api/person/7" (some (.str "before"))).verb
        (VerbCall.Get "api/person/7" (some (.str "before"))).uri
        (VerbCall.Get "api/person/7" (some (.str "before"))).payload []
        { statusCode := 204, status := "204 No Content", body := some (.ok "ignored") } ∧
      (204 : Int) = 204) ∧
    ((∀ tr1, fetchBody (sampleEnv (always 204 "204 No Content" (some (.ok "ignored"))))
        (VerbCall.Get "api/person/7" (some (.str "before"))).verb
        (VerbCall.Get "api/person/7" (some (.str "before"))).uri
        { statusCode := 204, status := "204 No Content", body := some (.ok "ignored") } tr1 =
          (("", none), tr1)) ∧
      ((VerbCall.Get "api/person/7" (some (.str "before"))).run
        (sampleEnv (always 204 "204 No Content" (some (.ok "ignored")))) sampleSession []).out =
        .ret none ∧
      ((VerbCall.Get "api/person/7" (some (.str "before"))).run
        (sampleEnv (always 204 "204 No Content" (some (.ok "ignored")))) sampleSession
          []).target = (VerbCall.Get "api/person/7" (some (.str "before"))).response ∧
      ∃ body parsed,
        encodePayload (sampleEnv (always 204 "204 No Content" (some (.ok "ignored"))))
          (VerbCall.Get "api/person/7" (some (.str "before"))).payload = .ok body ∧
        (sampleEnv (always 204 "204 No Content" (some (.ok "ignored")))).newRequest
          (VerbCall.Get "api/person/7" (some (.str "before"))).verb
          (sampleSession.prefix_ ++ (VerbCall.Get "api/person/7" (some (.str "before"))).uri) =
            .ok parsed ∧
        ((VerbCall.Get "api/person/7" (some (.str "before"))).run
          (sampleEnv (always 204 "204 No Content" (some (.ok "ignored")))) sampleSession
            []).trace =
          [] ++ [Event.request (outgoing
            (VerbCall.Get "api/person/7" (some (.str "before"))).verb parsed body)]) :=
  have h : Answered (sampleEnv (always 204 "204 No Content" (some (.ok "ignored"))))
      sampleSession (VerbCall.Get "api/person/7" (some (.str "before"))).verb
      (VerbCall.Get "api/person/7" (some (.str "before"))).uri
      (VerbCall.Get "api/person/7" (some (.str "before"))).payload []
      { statusCode := 204, status := "204 No Content", body := some (.ok "ignored") } :=
    ⟨_, ⟨none, _, rfl, rfl, by decide, rfl⟩, rfl⟩
  ⟨⟨h, rfl⟩, C6_status_204_is_success_without_decode _ _ _ _ _ h rfl⟩

/-- C8 (the code departs from the claim): whatever options it is given,
`NewPersonSession` returns a session whose timeout is 60 seconds, whose HTTP
client has a timeout of 60 seconds, and a nil error: the options are not
applied. In particular an option that sets the timeout to `t` leaves it at 60
seconds. -/
theorem C8_options_are_not_applied (host : String) (options : List SessionOption) (t : Duration) :
    (NewPersonSession host options).1.timeout = 60 * Second ∧
    (NewPersonSession host options).1.client =
      some { transport := some { insecureSkipVerify := true }, timeout := 60 * Second } ∧
    (NewPersonSession host options).2 = none ∧
    (NewPersonSession host [fun s => .ok { s with timeout := t }]).1.timeout = 60 * Second ∧
    (NewPersonSession host []).1.timeout = 60 * Second := by
  refine ⟨?_, ?_, ?_, ?_, ?_⟩ <;> simp [NewPersonSession, DEFAULT_API_TIMEOUT]

/-- C8, at an option that sets the timeout to five seconds. -/
theorem C8_timeout_option_ignored :
    (NewPersonSession "localhost:8080" [fun s => .ok { s with timeout := 5 * Second }]).1.timeout
      ≠ 5 * Second := by
  decide

/-- What holds of every response, with or without a body: for each of the
five verb methods a status code outside [200,299] never gives a nil error. -/
theorem status_outside_2xx_never_nil_error (env : Env) (personsess : PersonSession)
    (c : VerbCall) (tr : List Event) (resp : Response)
    (h : Answered env personsess c.verb c.uri c.payload tr resp)
    (hs : resp.statusCode < 200 ∨ resp.statusCode > 299) :
    (c.run env personsess tr).out ≠ .ret none := by
  by_cases hb : resp.statusCode < 200 ∨ resp.body.isSome = true
  · obtain ⟨e, he⟩ := outside_2xx_error env personsess c tr resp h hs hb
    rw [he]
    simp
  · have h299 : resp.statusCode > 299 := by omega
    have hnone : resp.body = none := by
      cases hbody : resp.body with
      | none => rfl
      | some b => simp [hbody] at hb
    rw [close_of_nil_body_panics env personsess c tr resp h h299 hnone]
    simp

/-- C10 (counterexample): a `Patch` whose payload `json.Marshal` rejects (a
channel) issues no request at all; it returns the error of `json.Marshal`. -/
theorem C10_patch_of_channel_sends_nothing :
    requestsOf (sampleSession.Patch (sampleEnv refused) "api/person/7"
      (.unsupported "chan int") "replace" (some .nil) []).trace = [] ∧
    (sampleSession.Patch (sampleEnv refused) "api/person/7"
      (.unsupported "chan int") "replace" (some .nil) []).out =
      .ret (some (.person { Verb := "PATCH", Url := "http://localhost:8080/api/person/7",
                            err := some "json: unsupported type: chan int" })) := by
  constructor <;> rfl

/-- C10 (amended): for every operation name `op` and every payload `p`,
`Patch` is `restRequestInterfaceResponse` with the verb PATCH, the same URI,
the same response variable and the map with the single key `op` and the value
`p`. When `json.Marshal` encodes `p` as `enc` and the request can be
constructed, `Patch` hands exactly one request to `client.Do`: a PATCH whose
body is the object with the single key `op` and the value `enc`. When
`json.Marshal` rejects `p`, or when the request cannot be constructed, `Patch`
issues no request, returns the error and leaves the response variable as it is. -/
theorem C10_patch_envelope (env : Env) (personsess : PersonSession) (uri op : String)
    (p : GoVal) (response : Option GoVal) (tr : List Event) :
    personsess.Patch env uri p op response tr =
      restRequestInterfaceResponse env personsess "PATCH" uri (.map [(op, p)]) response tr ∧
    (∀ enc parsed, jsonMarshal env p = .ok enc →
      env.newRequest "PATCH" (personsess.prefix_ ++ uri) = .ok parsed →
      personsess.client.isSome = true →
      requestsOf (personsess.Patch env uri p op response tr).trace =
        requestsOf tr ++
          [outgoing "PATCH" parsed
            (some ("\x7b" ++ (env.encodeString op ++ ":" ++ enc) ++ "\x7d"))]) ∧
    (∀ e, jsonMarshal env p = .error e →
      personsess.Patch env uri p op response tr =
        { out := .ret (some (.person
            { Verb := "PATCH", Url := personsess.prefix_ ++ uri, err := some e })),
          target := response, trace := tr }) ∧
    (∀ enc e, jsonMarshal env p = .ok enc →
      env.newRequest "PATCH" (personsess.prefix_ ++ uri) = .error e →
      personsess.Patch env uri p op response tr =
        { out := .ret (some (.person
            { Verb := "PATCH", Url := personsess.prefix_ ++ uri,
              err := some ("http.NewRequest failed: " ++ e) })),
          target := response, trace := tr }) := by
  have hpatch : personsess.Patch env uri p op response tr =
      restRequestInterfaceResponse env personsess "PATCH" uri (.map [(op, p)]) response tr :=
    rfl
  have hok : ∀ enc, jsonMarshal env p = .ok enc →
      encodePayload env (.map [(op, p)]) =
        .ok (some ("\x7b" ++ (env.encodeString op ++ ":" ++ enc) ++ "\x7d")) := by
    intro enc henc
    simp only [encodePayload, jsonMarshal, marshalFields, henc, sortByKey, insertByKey,
      encodeMembers, joinComma]
  refine ⟨hpatch, ?_, ?_, ?_⟩
  · intro enc parsed henc hn hc
    rw [hpatch]
    exact call_requests response tr ⟨_, parsed, hok enc henc, hn, hc, rfl⟩
  · intro e herr
    have hm : encodePayload env (.map [(op, p)]) = .error e := by
      simp only [encodePayload, jsonMarshal, marshalFields, herr, sortByKey, insertByKey,
        encodeMembers]
    rw [hpatch]
    exact call_marshal_error personsess response tr hm
  · intro enc e henc hn
    rw [hpatch]
    exact call_newRequest_error response tr (hok enc henc) hn

/-- C10, at the operation `replace` and the payload with the one member
`name`: the body sent is the envelope of the example. -/
theorem C10_replace_name_X :
    requestsOf (sampleSession.Patch (sampleEnv refused) "api/person/7"
        (.map [("name", .str "X")]) "replace" (some .nil) []).trace =
      [{ verb := "PATCH", url := "http://localhost:8080/api/person/7", headers := jsonHeaders,
         body := some "\x7b\"replace\":\x7b\"name\":\"X\"\x7d\x7d" }] ∧
    sampleSession.Patch (sampleEnv refused) "api/person/7" (.unsupported "chan int")
        "replace" (some .nil) [] =
      { out := .ret (some (.person
          { Verb := "PATCH", Url := sampleSession.prefix_ ++ "api/person/7",
            err := some "json: unsupported type: chan int" })),
        target := some .nil, trace := [] } :=
  ⟨(C10_patch_envelope (sampleEnv refused) sampleSession "api/person/7" "replace"
      (.map [("name", .str "X")]) (some .nil) []).2.1
      "\x7b\"name\":\"X\"\x7d" "http://localhost:8080/api/person/7" rfl rfl (by decide),
   (C10_patch_envelope (sampleEnv refused) sampleSession "api/person/7" "replace"
      (.unsupported "chan int") (some .nil) []).2.2.1 _ rfl⟩

/-- C9 (counterexample): with the service URL `my host`, for which no request
can be constructed, create issues no request; and when the server answers the
GET of an update with status 404, the update issues the GET and no PUT. -/
theorem C9_requests_not_always_issued :
    requestsOf (resourcePersonCreate (strictEnv (always 200 "200 OK" (some (.ok ""))))
      { id := "", fields := [("name", "Ada")] }
      (providerConfigure { fields := [("person_service_url", "my host"),
        ("person_service_port", "8080")] }).1 []).trace = [] ∧
    requestsOf (resourcePersonUpdate
      (sampleEnv (always 404 "404 Not Found" (some (.ok "no such person"))))
      samplePerson (providerConfigure sampleConfig).1 []).trace =
      [{ verb := "GET", url := "http://localhost:8080/api/person/7", headers := jsonHeaders,
         body := none }] := by
  constructor <;> rfl

/-- C9 (amended): for the session built by `providerConfigure` from the URL
`u` and the port `p`, and the stored id `i`, the requests a handler hands to
`client.Do` are these. Create: when `http.NewRequest` accepts the URL text
`http://u:p/api/person`, exactly one, the POST it builds from that text; when
it rejects the text, none. Read: when `http.NewRequest` accepts the URL text
`http://u:p/api/person/i`, exactly one, the GET it builds from that text,
without body; when it rejects the text, none. Delete: the same with a DELETE
without body. Update: when the text is rejected, none; when it is accepted and
the GET built from it is answered with a 2xx status other than 204 and a JSON
object, that GET and then the PUT built from the same text, or that GET alone
when `http.NewRequest` rejects the text for the PUT. -/
theorem C9_requests_of_the_handlers (env : Env) (cfg d : ResourceData) (tr : List Event) :
    ((∀ parsed, env.newRequest "POST"
        ("http://" ++ cfg.Get "person_service_url" ++ ":" ++ cfg.Get "person_service_port" ++
          "/api/person") = .ok parsed →
        ∃ b, requestsOf (resourcePersonCreate env d (providerConfigure cfg).1 tr).trace =
          requestsOf tr ++ [outgoing "POST" parsed (some b)]) ∧
      (∀ e, env.newRequest "POST"
        ("http://" ++ cfg.Get "person_service_url" ++ ":" ++ cfg.Get "person_service_port" ++
          "/api/person") = .error e →
        requestsOf (resourcePersonCreate env d (providerConfigure cfg).1 tr).trace =
          requestsOf tr)) ∧
    ((∀ parsed, env.newRequest "GET"
        ("http://" ++ cfg.Get "person_service_url" ++ ":" ++ cfg.Get "person_service_port" ++
          "/api/person/" ++ d.Get "person_id") = .ok parsed →
        requestsOf (ResourcePersonRead env d (providerConfigure cfg).1 tr).trace =
          requestsOf tr ++ [outgoing "GET" parsed none]) ∧
      (∀ e, env.newRequest "GET"
        ("http://" ++ cfg.Get "person_service_url" ++ ":" ++ cfg.Get "person_service_port" ++
          "/api/person/" ++ d.Get "person_id") = .error e →
        requestsOf (ResourcePersonRead env d (providerConfigure cfg).1 tr).trace =
          requestsOf tr)) ∧
    ((∀ parsed, env.newRequest "DELETE"
        ("http://" ++ cfg.Get "person_service_url" ++ ":" ++ cfg.Get "person_service_port" ++
          "/api/person/" ++ d.Get "person_id") = .ok parsed →
        requestsOf (resourcePersonDelete env d (providerConfigure cfg).1 tr).trace =
          requestsOf tr ++ [outgoing "DELETE" parsed none]) ∧
      (∀ e, env.newRequest "DELETE"
        ("http://" ++ cfg.Get "person_service_url" ++ ":" ++ cfg.Get "person_service_port" ++
          "/api/person/" ++ d.Get "person_id") = .error e →
        requestsOf (resourcePersonDelete env d (providerConfigure cfg).1 tr).trace =
          requestsOf tr)) ∧
    ((∀ e, env.newRequest "GET"
        ("http://" ++ cfg.Get "person_service_url" ++ ":" ++ cfg.Get "person_service_port" ++
          "/api/person/" ++ d.Get "person_id") = .error e →
        requestsOf (resourcePersonUpdate env d (providerConfigure cfg).1 tr).trace =
          requestsOf tr) ∧
      (∀ parsedG resp res m, env.newRequest "GET"
        ("http://" ++ cfg.Get "person_service_url" ++ ":" ++ cfg.Get "person_service_port" ++
          "/api/person/" ++ d.Get "person_id") = .ok parsedG →
        (env.clientDo tr (outgoing "GET" parsedG none)).resp = some resp →
        Delivers env resp res m →
        (∀ parsedP, env.newRequest "PUT"
          ("http://" ++ cfg.Get "person_service_url" ++ ":" ++
            cfg.Get "person_service_port" ++ "/api/person/" ++ d.Get "person_id") =
              .ok parsedP →
          ∃ b, requestsOf (resourcePersonUpdate env d (providerConfigure cfg).1 tr).trace =
            requestsOf tr ++ [outgoing "GET" parsedG none, outgoing "PUT" parsedP (some b)]) ∧
        (∀ e, env.newRequest "PUT"
          ("http://" ++ cfg.Get "person_service_url" ++ ":" ++
            cfg.Get "person_service_port" ++ "/api/person/" ++ d.Get "person_id") =
              .error e →
          requestsOf (resourcePersonUpdate env d (providerConfigure cfg).1 tr).trace =
            requestsOf tr ++ [outgoing "GET" parsedG none]))) := by
  have hc := configured_client cfg
  have hnil : encodePayload env .nil = .ok none := rfl
  simp only [← collection_url, ← person_url]
  refine ⟨⟨?_, ?_⟩, ⟨?_, ?_⟩, ⟨?_, ?_⟩, ⟨?_, ?_⟩⟩
  · intro parsed hn
    obtain ⟨b, hm⟩ := encodePayload_map (create_payload_encodes env d)
    refine ⟨b, ?_⟩
    rw [create_trace]
    exact call_requests (some .nil) tr ⟨_, parsed, hm, hn, hc, rfl⟩
  · intro e hn
    obtain ⟨b, hm⟩ := encodePayload_map (create_payload_encodes env d)
    rw [create_trace]
    simp only [PersonSession.Post]
    rw [call_newRequest_error (some .nil) tr hm hn]
  · intro parsed hn
    rw [read_trace]
    exact call_requests (some .nil) tr ⟨_, parsed, hnil, hn, hc, rfl⟩
  · intro e hn
    rw [read_trace]
    simp only [PersonSession.Get]
    rw [call_newRequest_error (some .nil) tr hnil hn]
  · intro parsed hn
    exact call_requests none tr ⟨_, parsed, hnil, hn, hc, rfl⟩
  · intro e hn
    simp only [resourcePersonDelete, PersonSession.Delete]
    rw [call_newRequest_error none tr hnil hn]
  · intro e hn
    simp only [resourcePersonUpdate, PersonSession.Get,
      call_newRequest_error (some .nil) tr hnil hn]
  · intro parsedG resp res m hn hd hv
    have hsG : Sends env (providerConfigure cfg).1 "GET" ("api/person/" ++ d.Get "person_id")
        .nil (outgoing "GET" parsedG none) := ⟨_, parsedG, hnil, hn, hc, rfl⟩
    have hcall := call_delivers .nil hsG hd hv
    obtain ⟨b, hm⟩ : ∃ b, encodePayload env (updatePayload d m) = .ok (some b) :=
      encodePayload_map (update_payload_encodes env d m (delivers_encodes hv))
    have ht : (resourcePersonUpdate env d (providerConfigure cfg).1 tr).trace =
        (restRequestInterfaceResponse env (providerConfigure cfg).1 "PUT"
          ("api/person/" ++ d.Get "person_id") (updatePayload d m) (some .nil)
          (afterDecode tr (outgoing "GET" parsedG none) res)).trace := by
      simp only [resourcePersonUpdate, PersonSession.Get, PersonSession.Put, hcall,
        updatePayload]
      split <;> simp [storeIdentity_trace]
    have hreq : requestsOf (afterDecode tr (outgoing "GET" parsedG none) res) =
        requestsOf tr ++ [outgoing "GET" parsedG none] := by
      simp [afterDecode, requestsOf_append, requestsOf]
    refine ⟨?_, ?_⟩
    · intro parsedP hnP
      refine ⟨b, ?_⟩
      rw [ht, call_requests (some .nil) _ ⟨_, parsedP, hm, hnP, hc, rfl⟩, hreq]
      simp
    · intro e hnP
      rw [ht, call_newRequest_error (some .nil) _ hm hnP]
      exact hreq

/-- C9, at person 7 on `localhost:8080`, with a server that answers every
request with the object of person 42, and at the service URL `my host`. -/
theorem C9_requests_on_localhost :
    (∃ b, requestsOf (resourcePersonCreate (sampleEnv personServer) samplePerson
        (providerConfigure sampleConfig).1 []).trace =
      [{ verb := "POST", url := "http://localhost:8080/api/person", headers := jsonHeaders,
         body := some b }]) ∧
    requestsOf (ResourcePersonRead (sampleEnv personServer) samplePerson
        (providerConfigure sampleConfig).1 []).trace =
      [{ verb := "GET", url := "http://localhost:8080/api/person/7", headers := jsonHeaders,
         body := none }] ∧
    requestsOf (resourcePersonDelete (sampleEnv personServer) samplePerson
        (providerConfigure sampleConfig).1 []).trace =
      [{ verb := "DELETE", url := "http://localhost:8080/api/person/7", headers := jsonHeaders,
         body := none }] ∧
    (∃ b, requestsOf (resourcePersonUpdate (sampleEnv personServer) samplePerson
        (providerConfigure sampleConfig).1 []).trace =
      [{ verb := "GET", url := "http://localhost:8080/api/person/7", headers := jsonHeaders,
         body := none },
       { verb := "PUT", url := "http://localhost:8080/api/person/7", headers := jsonHeaders,
         body := some b }]) ∧
    requestsOf (ResourcePersonRead (strictEnv personServer) samplePerson
        (providerConfigure { fields := [("person_service_url", "my host"),
          ("person_service_port", "8080")] }).1 []).trace = [] :=
  have h := C9_requests_of_the_handlers (sampleEnv personServer) sampleConfig samplePerson []
  have hv : Delivers (sampleEnv personServer) person42 "\x7b\"person_id\":42\x7d"
      (decodeFields [("person_id", .num false 42 0)] []) :=
    ⟨by decide, by decide, by decide, rfl, by decide, _, rfl, rfl⟩
  ⟨h.1.1 _ rfl, h.2.1.1 _ rfl, h.2.2.1.1 _ rfl, (h.2.2.2.2 _ person42 _ _ rfl rfl hv).1 _ rfl,
   (C9_requests_of_the_handlers (strictEnv personServer)
      { fields := [("person_service_url", "my host"), ("person_service_port", "8080")] }
      samplePerson []).2.1.2 _ rfl⟩

set_option exponentiation.threshold 2000 in
set_option maxRecDepth 100000 in
/-- C7 (counterexample): when the server returns `person_id: 9007199254740993`
(`2^53 + 1`), create stores `9007199254740992`, which is another number; and
when it returns `person_id: 1e400`, a number beyond float64, create stores
nothing and panics on the type assertion to float64. -/
theorem C7_identity_not_always_n :
    ((resourcePersonCreate (sampleEnv bigIdServer) { fields := [("name", "Ada")] }
        sampleSession []).d.id = "9007199254740992" ∧
      (resourcePersonCreate (sampleEnv bigIdServer) { fields := [("name", "Ada")] }
        sampleSession []).d.id ≠ Nat.repr 9007199254740993) ∧
    ((resourcePersonCreate (sampleEnv hugeIdServer) { fields := [("name", "Ada")] }
        sampleSession []).out = .panic (conversionPanic "float64") ∧
      (resourcePersonCreate (sampleEnv hugeIdServer) { fields := [("name", "Ada")] }
        sampleSession []).d.id = "") := by
  refine ⟨⟨?_, ?_⟩, ⟨?_, ?_⟩⟩
  · rfl
  · decide
  · rfl
  · rfl

/-- C7 (amended): let the server return the non-negative integer `n` as the
JSON number `person_id`, let `n` be within float64 range and `f` the float64
it decodes to. Then the text `%.0f` makes of `f` is decimal digits only, and
it is the decimal representation of `n` whenever `n` is at most `2^53`. And
each handler whose request is answered with a 2xx status other than 204 and a
JSON object with that `person_id` (create: its POST; read: its GET; update:
its PUT, after its GET was answered with a JSON object) returns a nil error
and stores that text both as the unique id and as the field `person_id`. -/
theorem C7_identity_is_float64_digits (env : Env) (d : ResourceData)
    (client : PersonSession) (tr : List Event) (n : Nat) (f : F64)
    (hf : decodeNumber false n 0 = some f) :
    ((∃ k, F64.format0 f = Nat.repr k) ∧ (n ≤ 2 ^ 53 → F64.format0 f = Nat.repr n)) ∧
    (∀ req resp res m,
      Sends env client "POST" "api/person" (createPayload d) req →
      (env.clientDo tr req).resp = some resp → Delivers env resp res m →
      mapGet "person_id" m = some (decodeJson (.num false n 0)) →
      (resourcePersonCreate env d client tr).out = .ret none ∧
      (resourcePersonCreate env d client tr).d.id = F64.format0 f ∧
      (resourcePersonCreate env d client tr).d.Get "person_id" = F64.format0 f) ∧
    (∀ req resp res m,
      Sends env client "GET" ("api/person/" ++ d.Get "person_id") .nil req →
      (env.clientDo tr req).resp = some resp → Delivers env resp res m →
      mapGet "person_id" m = some (decodeJson (.num false n 0)) →
      (ResourcePersonRead env d client tr).out = .ret none ∧
      (ResourcePersonRead env d client tr).d.id = F64.format0 f ∧
      (ResourcePersonRead env d client tr).d.Get "person_id" = F64.format0 f) ∧
    (∀ reqG respG resG mG reqP respP resP mP,
      Sends env client "GET" ("api/person/" ++ d.Get "person_id") .nil reqG →
      (env.clientDo tr reqG).resp = some respG → Delivers env respG resG mG →
      Sends env client "PUT" ("api/person/" ++ d.Get "person_id") (updatePayload d mG) reqP →
      (env.clientDo (afterDecode tr reqG resG) reqP).resp = some respP →
      Delivers env respP resP mP →
      mapGet "person_id" mP = some (decodeJson (.num false n 0)) →
      (resourcePersonUpdate env d client tr).out = .ret none ∧
      (resourcePersonUpdate env d client tr).d.id = F64.format0 f ∧
      (resourcePersonUpdate env d client tr).d.Get "person_id" = F64.format0 f) := by
  have hstored := stored_identity d (F64.format0 f)
  refine ⟨⟨format0_digits f (decodeNumber_neg hf), ?_⟩, ?_, ?_, ?_⟩
  · intro hn
    obtain ⟨f', hf', hfmt⟩ := decodeNumber_format0 n hn
    rw [hf] at hf'
    injection hf' with hff
    rw [hff]
    exact hfmt
  · intro req resp res m hs hd hv hid
    obtain ⟨hcall, hstore⟩ := store_delivered d hf hs hd hv hid
    simp only [createPayload] at hcall
    simp only [resourcePersonCreate, PersonSession.Post, hcall, hstore]
    exact ⟨trivial, hstored⟩
  · intro req resp res m hs hd hv hid
    obtain ⟨hcall, hstore⟩ := store_delivered d hf hs hd hv hid
    simp only [ResourcePersonRead, PersonSession.Get, hcall, hstore]
    exact ⟨trivial, hstored⟩
  · intro reqG respG resG mG reqP respP resP mP hsG hdG hvG hsP hdP hvP hid
    have hcallG := call_delivers .nil hsG hdG hvG
    obtain ⟨hcallP, hstore⟩ := store_delivered d hf hsP hdP hvP hid
    simp only [updatePayload] at hcallP
    simp only [resourcePersonUpdate, PersonSession.Get, PersonSession.Put, hcallG, hcallP,
      hstore]
    exact ⟨trivial, hstored⟩

/-- C7, at person 7 with a server that returns `person_id: 42`: each handler
replaces the id `7` by `42`. -/
theorem C7_identity_42 :
    (decodeNumber false 42 0 = some { neg := false, mant := 42 * 2 ^ 47, exp := -47 } ∧
      F64.format0 { neg := false, mant := 42 * 2 ^ 47, exp := -47 } = "42") ∧
    ((resourcePersonCreate (sampleEnv personServer) samplePerson sampleSession []).out =
        .ret none ∧
      (resourcePersonCreate (sampleEnv personServer) samplePerson sampleSession []).d.id =
        "42" ∧
      (resourcePersonCreate (sampleEnv personServer) samplePerson sampleSession []).d.Get
        "person_id" = "42") ∧
    ((ResourcePersonRead (sampleEnv personServer) samplePerson sampleSession []).out =
        .ret none ∧
      (ResourcePersonRead (sampleEnv personServer) samplePerson sampleSession []).d.id =
        "42" ∧
      (ResourcePersonRead (sampleEnv personServer) samplePerson sampleSession []).d.Get
        "person_id" = "42") ∧
    ((resourcePersonUpdate (sampleEnv personServer) samplePerson sampleSession []).out =
        .ret none ∧
      (resourcePersonUpdate (sampleEnv personServer) samplePerson sampleSession []).d.id =
        "42" ∧
      (resourcePersonUpdate (sampleEnv personServer) samplePerson sampleSession []).d.Get
        "person_id" = "42") :=
  have hf : decodeNumber false 42 0 = some { neg := false, mant := 42 * 2 ^ 47, exp := -47 } :=
    by decide
  have h := C7_identity_is_float64_digits (sampleEnv personServer) samplePerson sampleSession []
    42 _ hf
  have hv : Delivers (sampleEnv personServer) person42 "\x7b\"person_id\":42\x7d"
      (decodeFields [("person_id", .num false 42 0)] []) :=
    ⟨by decide, by decide, by decide, rfl, by decide, _, rfl, rfl⟩
  have hPost : Sends (sampleEnv personServer) sampleSession "POST" "api/person"
      (createPayload samplePerson)
      (outgoing "POST" "http://localhost:8080/api/person"
        (some "\x7b\"address\":\"\",\"email\":\"\",\"mobile_number\":\"\",\"name\":\"Ada\"\x7d")) :=
    ⟨_, _, rfl, rfl, by decide, rfl⟩
  have hGet : Sends (sampleEnv personServer) sampleSession "GET"
      ("api/person/" ++ samplePerson.Get "person_id") .nil
      (outgoing "GET" "http://localhost:8080/api/person/7" none) :=
    ⟨_, _, rfl, rfl, by decide, rfl⟩
  have hPut : Sends (sampleEnv personServer) sampleSession "PUT"
      ("api/person/" ++ samplePerson.Get "person_id")
      (updatePayload samplePerson (decodeFields [("person_id", .num false 42 0)] []))
      (outgoing "PUT" "http://localhost:8080/api/person/7"
        (some "\x7b\"address\":\"\",\"email\":\"\",\"mobile_number\":\"\",\"name\":\"Ada\",\"person_id\":42\x7d")) :=
    ⟨_, _, rfl, rfl, by decide, rfl⟩
  ⟨⟨hf, by decide⟩,
   h.2.1 _ person42 _ _ hPost rfl hv rfl,
   h.2.2.1 _ person42 _ _ hGet rfl hv rfl,
   h.2.2.2 _ person42 _ _ _ person42 _ _ hGet rfl hv hPut rfl hv rfl⟩

end Person
